import Mathlib

/-!
# oojinwoo-server: authentication gate, ownership policy and account handlers

A shallow embedding of `src/server.js`, an Express application over three
Sequelize models (`User`, `Post`, `Comment`).

* The relational store is an explicit `Store` value threaded through every
  handler. The column constraints the source declares (`allowNull: false`,
  `unique: true`, `defaultValue: "user"`, `onDelete: "CASCADE"`) are part of
  the store operations.
* `bcrypt` and `jsonwebtoken` are external libraries; the handlers take them
  as the fields of an `Env`. A concrete instance modelled from the
  specification (`specEnv`) is used where a statement is about the
  libraries themselves and for concrete evaluation.
* A handler that throws (the source has no `try`/`catch` outside `auth`)
  ends in `Outcome.fault`: no response is sent by the handler.
* Route parameters are the keys the store resolves them to, and text columns
  hold strings: the coercions of the database driver are not modelled, and a
  body value of another JSON type written to a text column is refused like a
  missing one. No statement below depends on what happens to such a value.
* The rows carry the columns the ORM manages itself: `id`, `createdAt` and
  `updatedAt`. `createdAt` and `updatedAt` are clock readings; `save()`
  rewrites `updatedAt` when it writes a row and does nothing when no
  attribute changed.
-/

namespace OojinwooServer

/-! ## JSON values, requests and responses -/

/-- JavaScript values that travel in request and response bodies. -/
inductive JVal where
  | undefined
  | null
  | bool (b : Bool)
  | num (n : Nat)
  | str (s : String)
  | arr (xs : List JVal)
  | obj (kvs : List (String × JVal))
  deriving Repr

/-- Property access `body.k` on a parsed JSON object: `undefined` when the key is absent. -/
def field (body : List (String × JVal)) (k : String) : JVal :=
  match body.lookup k with
  | some v => v
  | none => JVal.undefined

/-- The two values of `DataTypes.ENUM("user", "admin")`. -/
inductive Role where
  | user
  | admin
  deriving DecidableEq, Repr

/-- The JSON string of a role. -/
def Role.toJson : Role → JVal
  | Role.user => JVal.str "user"
  | Role.admin => JVal.str "admin"

/-- The payload `{ id, role }` that `auth` stores in `req.user`. -/
structure Principal where
  id : Nat
  role : Role
  deriving DecidableEq, Repr

/-- What a handler reads of a request: the `Authorization` header, the `:id`
route parameter and the parsed JSON body. -/
structure Req where
  authorization : Option String
  id : Nat
  body : List (String × JVal)

/-- A response `res.status(status).json(body)`. -/
structure Response where
  status : Nat
  body : JVal

/-- How a handler ends: it sent a response, or it threw before sending one. -/
inductive Outcome where
  | sent (r : Response)
  | fault

/-- `res.json(body)`: status 200. -/
def ok (body : JVal) : Outcome :=
  Outcome.sent ⟨200, body⟩

/-- `res.status(status).json({ error: msg })`. -/
def errorResponse (status : Nat) (msg : String) : Response :=
  ⟨status, JVal.obj [("error", JVal.str msg)]⟩

/-! ## The store -/

/-- A row of `User` (lines 39-47). -/
structure User where
  id : Nat
  username : String
  password : String
  name : String
  role : Role
  createdAt : Nat
  updatedAt : Nat
  deriving DecidableEq, Repr

/-- A row of `Post` (lines 51-57). -/
structure Post where
  id : Nat
  title : String
  content : String
  userId : Nat
  createdAt : Nat
  updatedAt : Nat
  deriving DecidableEq, Repr

/-- A row of `Comment` (lines 63-73). -/
structure Comment where
  id : Nat
  content : String
  userId : Nat
  postId : Nat
  createdAt : Nat
  updatedAt : Nat
  deriving DecidableEq, Repr

/-- The three tables and their auto-increment counters. -/
structure Store where
  users : List User
  posts : List Post
  comments : List Comment
  userSeq : Nat
  postSeq : Nat
  commentSeq : Nat
  deriving DecidableEq, Repr

/-- Why a store operation throws. -/
inductive DbError where
  | notNull
  | unique
  | foreignKey
  | invalidWhere
  deriving DecidableEq, Repr

/-- The result of a handler: the store it leaves and how it ended. -/
structure Result where
  store : Store
  out : Outcome

/-- The value written to a text column declared `allowNull: false`:
a string is kept, `null` and `undefined` are refused. Values of the other
JSON types are outside what the rows can hold and are refused as well, where
the ORM would hand them to the database (a number is stored as its text).
Every statement below that asserts a write is about string values, and every
statement about all bodies holds whichever way such a value is treated. -/
def text (v : JVal) : Except DbError String :=
  match v with
  | JVal.str s => Except.ok s
  | _ => Except.error DbError.notNull

/-- The external collaborators of the handlers. -/
structure Env where
  /-- `bcrypt.hash(password, 10)`; `none` when it throws. -/
  bcryptHash : JVal → Option String
  /-- `bcrypt.compare(password, hash)`; `none` when it throws. -/
  bcryptCompare : JVal → String → Option Bool
  /-- `jwt.sign(payload, secret, { expiresIn })` at the clock reading `now`
  (arguments: payload, secret, lifetime in seconds, now). -/
  jwtSign : Principal → String → Nat → Nat → String
  /-- `jwt.verify(token, secret)` at the clock reading `now`; `none` when it throws. -/
  jwtVerify : String → String → Nat → Option Principal
  /-- Whether the database checks the declared foreign keys when a row is inserted. -/
  checksForeignKeys : Bool

/-- `User.create({ username, password, name })`: the three columns are
required, `username` is unique, `role` takes its default. -/
def User.create (s : Store) (now : Nat) (username password name : JVal) :
    Except DbError (Store × User) :=
  match text username, text password, text name with
  | Except.ok u, Except.ok p, Except.ok n =>
    if s.users.any (fun x => x.username == u) then Except.error DbError.unique
    else
      let user : User := ⟨s.userSeq, u, p, n, Role.user, now, now⟩
      Except.ok ({ s with users := s.users ++ [user], userSeq := s.userSeq + 1 }, user)
  | _, _, _ => Except.error DbError.notNull

/-- `User.findOne({ where: { username } })`: the first account with that
identifier. An `undefined` value in `where` throws. A value that is not a
string matches no account in the model; the ORM would build another query
from it, which the database answers by its own conversion rules. The
statements below only use which account is found. -/
def User.findOne (s : Store) (username : JVal) : Except DbError (Option User) :=
  match username with
  | JVal.undefined => Except.error DbError.invalidWhere
  | JVal.str u => Except.ok (s.users.find? (fun x => x.username == u))
  | _ => Except.ok none

/-- `User.findByPk(id)`. -/
def User.findByPk (s : Store) (id : Nat) : Option User :=
  s.users.find? (fun x => x.id == id)

/-- `User.destroy({ where: { id } })`, with the declared cascades to the
posts and comments of the account and to the comments of its posts. -/
def User.destroy (s : Store) (id : Nat) : Store :=
  let gone := (s.posts.filter (fun p => p.userId == id)).map (fun p => p.id)
  { s with
    users := s.users.filter (fun x => x.id != id)
    posts := s.posts.filter (fun p => p.userId != id)
    comments := s.comments.filter (fun c => c.userId != id && !(gone.contains c.postId)) }

/-- `Post.create({ title, content, userId })`. -/
def Post.create (E : Env) (s : Store) (now : Nat) (title content : JVal) (userId : Nat) :
    Except DbError (Store × Post) :=
  match text title, text content with
  | Except.ok t, Except.ok c =>
    if E.checksForeignKeys && !(s.users.any (fun x => x.id == userId)) then
      Except.error DbError.foreignKey
    else
      let post : Post := ⟨s.postSeq, t, c, userId, now, now⟩
      Except.ok ({ s with posts := s.posts ++ [post], postSeq := s.postSeq + 1 }, post)
  | _, _ => Except.error DbError.notNull

/-- `Post.findByPk(id)`. -/
def Post.findByPk (s : Store) (id : Nat) : Option Post :=
  s.posts.find? (fun p => p.id == id)

/-- The assignments `post.title = ...; post.content = ...` followed by
`post.save()` at the clock reading `now`. When neither attribute changed,
nothing is written. Otherwise the two columns of the row are written and its
`updatedAt` is set to `now`. -/
def Post.save (s : Store) (now : Nat) (post : Post) (title content : JVal) :
    Except DbError (Store × Post) :=
  match text title, text content with
  | Except.ok t, Except.ok c =>
    if t = post.title ∧ c = post.content then Except.ok (s, post)
    else
      let rows := s.posts.map (fun p =>
        if p.id = post.id then { p with title := t, content := c, updatedAt := now } else p)
      Except.ok
        ({ s with posts := rows }, { post with title := t, content := c, updatedAt := now })
  | _, _ => Except.error DbError.notNull

/-- `post.destroy()`, with the declared cascade to the comments of the post. -/
def Post.destroy (s : Store) (post : Post) : Store :=
  { s with
    posts := s.posts.filter (fun p => p.id != post.id)
    comments := s.comments.filter (fun c => c.postId != post.id) }

/-- `Comment.create({ content, userId, postId })`. -/
def Comment.create (E : Env) (s : Store) (now : Nat) (content : JVal) (userId postId : Nat) :
    Except DbError (Store × Comment) :=
  match text content with
  | Except.ok c =>
    if E.checksForeignKeys &&
        !(s.users.any (fun x => x.id == userId) && s.posts.any (fun p => p.id == postId)) then
      Except.error DbError.foreignKey
    else
      let comment : Comment := ⟨s.commentSeq, c, userId, postId, now, now⟩
      Except.ok
        ({ s with comments := s.comments ++ [comment], commentSeq := s.commentSeq + 1 }, comment)
  | _ => Except.error DbError.notNull

/-- `Comment.findByPk(id)`. -/
def Comment.findByPk (s : Store) (id : Nat) : Option Comment :=
  s.comments.find? (fun c => c.id == id)

/-- The assignment `comment.content = ...` followed by `comment.save()` at
the clock reading `now`. When the attribute did not change, nothing is
written. Otherwise the column of the row is written and its `updatedAt` is set
to `now`. -/
def Comment.save (s : Store) (now : Nat) (comment : Comment) (content : JVal) :
    Except DbError (Store × Comment) :=
  match text content with
  | Except.ok c =>
    if c = comment.content then Except.ok (s, comment)
    else
      let rows := s.comments.map (fun x =>
        if x.id = comment.id then { x with content := c, updatedAt := now } else x)
      Except.ok ({ s with comments := rows }, { comment with content := c, updatedAt := now })
  | _ => Except.error DbError.notNull

/-- `comment.destroy()`. -/
def Comment.destroy (s : Store) (comment : Comment) : Store :=
  { s with comments := s.comments.filter (fun c => c.id != comment.id) }

/-! ## JSON of the rows -/

/-- The JSON of a full `User` instance, as `res.json(user)` sends it. -/
def User.toJson (u : User) : JVal :=
  JVal.obj
    [("id", JVal.num u.id), ("username", JVal.str u.username), ("password", JVal.str u.password),
     ("name", JVal.str u.name), ("role", u.role.toJson), ("createdAt", JVal.num u.createdAt),
     ("updatedAt", JVal.num u.updatedAt)]

/-- The JSON of a `User` read with `attributes: ["id", "username", "name", "createdAt"]`. -/
def User.profileJson (u : User) : JVal :=
  JVal.obj
    [("id", JVal.num u.id), ("username", JVal.str u.username), ("name", JVal.str u.name),
     ("createdAt", JVal.num u.createdAt)]

/-- The JSON of a `Post` instance. -/
def Post.toJson (p : Post) : JVal :=
  JVal.obj
    [("id", JVal.num p.id), ("title", JVal.str p.title), ("content", JVal.str p.content),
     ("userId", JVal.num p.userId), ("createdAt", JVal.num p.createdAt),
     ("updatedAt", JVal.num p.updatedAt)]

/-- The JSON of a `Comment` instance whose `postId` attribute holds `postId`. -/
def Comment.toJsonWith (c : Comment) (postId : JVal) : JVal :=
  JVal.obj
    [("id", JVal.num c.id), ("content", JVal.str c.content), ("userId", JVal.num c.userId),
     ("postId", postId), ("createdAt", JVal.num c.createdAt),
     ("updatedAt", JVal.num c.updatedAt)]

/-- The JSON of a `Comment` instance read from the store. -/
def Comment.toJson (c : Comment) : JVal :=
  c.toJsonWith (JVal.num c.postId)

/-- The character of a decimal digit. -/
def digitChar (d : Nat) : Char :=
  Char.ofNat (48 + d)

/-- The decimal digits of `n`, least significant first; `fuel` bounds their number. -/
def encodeNatAux : Nat → Nat → List Char
  | 0, _ => []
  | fuel + 1, n => digitChar (n % 10) :: (if n < 10 then [] else encodeNatAux fuel (n / 10))

/-- The decimal digits of `n`, least significant first. -/
def encodeNat (n : Nat) : List Char :=
  encodeNatAux (n + 1) n

/-- The decimal text of `n`. -/
def decimal (n : Nat) : String :=
  String.mk (encodeNat n).reverse

/-! ## The authentication gate (lines 78-88) -/

/-- The signing secret (line 61). -/
def SECRET : String := "mySecret"

/-- The lifetime `"7d"` in seconds. -/
def sevenDays : Nat := 7 * 24 * 60 * 60

/-- Splitting a list of characters at every occurrence of `sep`. -/
def splitOnChar (sep : Char) : List Char → List (List Char)
  | [] => [[]]
  | c :: cs =>
    if c = sep then [] :: splitOnChar sep cs
    else
      match splitOnChar sep cs with
      | [] => [[c]]
      | w :: ws => (c :: w) :: ws

/-- JavaScript `s.split(" ")`. -/
def jsSplit (s : String) : List String :=
  (splitOnChar (Char.ofNat 32) s.toList).map String.mk

/-- The expression `req.headers.authorization?.split(" ")[1]`; `none` is `undefined`. -/
def bearerToken (authorization : Option String) : Option String :=
  match authorization with
  | none => none
  | some h => (jsSplit h)[1]?

/-- What the middleware `auth` does with a request. -/
inductive Gate where
  | reject (r : Response)
  | next (user : Principal)

/-- The middleware `auth`. -/
def auth (E : Env) (now : Nat) (req : Req) : Gate :=
  match bearerToken req.authorization with
  | none => Gate.reject (errorResponse 401 "로그인이 필요합니다.")
  | some token =>
    if token = "" then Gate.reject (errorResponse 401 "로그인이 필요합니다.")
    else
      match E.jwtVerify token SECRET now with
      | some decoded => Gate.next decoded
      | none => Gate.reject (errorResponse 403 "토큰이 유효하지 않습니다.")

/-- A route registered as `app.method(path, auth, handler)`: the handler runs
only when `auth` calls `next()`. -/
def guarded (E : Env) (now : Nat) (s : Store) (req : Req) (handler : Principal → Result) :
    Result :=
  match auth E now req with
  | Gate.reject r => ⟨s, Outcome.sent r⟩
  | Gate.next user => handler user

/-! ## Account handlers -/

/-- `POST /api/register` (lines 92-97). -/
def register (E : Env) (now : Nat) (s : Store) (req : Req) : Result :=
  let username := field req.body "username"
  let password := field req.body "password"
  let name := field req.body "name"
  match E.bcryptHash password with
  | none => ⟨s, Outcome.fault⟩
  | some hash =>
    match User.create s now username (JVal.str hash) name with
    | Except.error _ => ⟨s, Outcome.fault⟩
    | Except.ok (s', _) => ⟨s', ok (JVal.obj [("message", JVal.str "회원가입 성공")])⟩

/-- `POST /api/login` (lines 101-117). -/
def login (E : Env) (now : Nat) (s : Store) (req : Req) : Result :=
  let username := field req.body "username"
  let password := field req.body "password"
  match User.findOne s username with
  | Except.error _ => ⟨s, Outcome.fault⟩
  | Except.ok none => ⟨s, Outcome.sent (errorResponse 401 "존재하지 않는 사용자입니다.")⟩
  | Except.ok (some user) =>
    match E.bcryptCompare password user.password with
    | none => ⟨s, Outcome.fault⟩
    | some false => ⟨s, Outcome.sent (errorResponse 401 "비밀번호가 틀립니다.")⟩
    | some true =>
      let token := E.jwtSign ⟨user.id, user.role⟩ SECRET sevenDays now
      ⟨s, ok (JVal.obj [("token", JVal.str token), ("user", user.toJson)])⟩

/-- The handler of `GET /api/profile` (lines 121-126). -/
def getProfileHandler (s : Store) (user : Principal) : Result :=
  match User.findByPk s user.id with
  | some u => ⟨s, ok u.profileJson⟩
  | none => ⟨s, ok JVal.null⟩

/-- `GET /api/profile`. -/
def getProfile (E : Env) (now : Nat) (s : Store) (req : Req) : Result :=
  guarded E now s req (getProfileHandler s)

/-- The handler of `DELETE /api/profile` (lines 129-132). -/
def deleteProfileHandler (s : Store) (user : Principal) : Result :=
  ⟨User.destroy s user.id, ok (JVal.obj [("message", JVal.str "회원탈퇴 완료")])⟩

/-- `DELETE /api/profile`. -/
def deleteProfile (E : Env) (now : Nat) (s : Store) (req : Req) : Result :=
  guarded E now s req (deleteProfileHandler s)

/-! ## Post and comment handlers -/

/-- The handler of `POST /api/posts` (lines 135-142). -/
def createPostHandler (E : Env) (now : Nat) (s : Store) (req : Req) (user : Principal) :
    Result :=
  match Post.create E s now (field req.body "title") (field req.body "content") user.id with
  | Except.error _ => ⟨s, Outcome.fault⟩
  | Except.ok (s', post) => ⟨s', ok post.toJson⟩

/-- `POST /api/posts`. -/
def createPost (E : Env) (now : Nat) (s : Store) (req : Req) : Result :=
  guarded E now s req (createPostHandler E now s req)

/-- The handler of `POST /api/posts/:id/comments` (lines 146-155). The
instance it sends back holds `postId` as it was given, the text of the route
parameter, which is the decimal text of the key. -/
def createCommentHandler (E : Env) (now : Nat) (s : Store) (req : Req) (user : Principal) :
    Result :=
  let content := field req.body "content"
  let postId := req.id
  match Comment.create E s now content user.id postId with
  | Except.error _ => ⟨s, Outcome.fault⟩
  | Except.ok (s', comment) => ⟨s', ok (comment.toJsonWith (JVal.str (decimal postId)))⟩

/-- `POST /api/posts/:id/comments`. -/
def createComment (E : Env) (now : Nat) (s : Store) (req : Req) : Result :=
  guarded E now s req (createCommentHandler E now s req)

/-- The handler of `DELETE /api/comments/:id` (lines 169-179). -/
def deleteCommentHandler (s : Store) (req : Req) (user : Principal) : Result :=
  match Comment.findByPk s req.id with
  | none => ⟨s, Outcome.sent (errorResponse 404 "댓글 없음")⟩
  | some comment =>
    if user.role ≠ Role.admin ∧ comment.userId ≠ user.id then
      ⟨s, Outcome.sent (errorResponse 403 "삭제 권한 없음")⟩
    else
      ⟨Comment.destroy s comment, ok (JVal.obj [("message", JVal.str "삭제 완료")])⟩

/-- `DELETE /api/comments/:id`. -/
def deleteComment (E : Env) (now : Nat) (s : Store) (req : Req) : Result :=
  guarded E now s req (deleteCommentHandler s req)

/-- The handler of `PUT /api/comments/:id` (lines 182-193). -/
def updateCommentHandler (now : Nat) (s : Store) (req : Req) (user : Principal) : Result :=
  match Comment.findByPk s req.id with
  | none => ⟨s, Outcome.sent (errorResponse 404 "댓글 없음")⟩
  | some comment =>
    if user.role ≠ Role.admin ∧ comment.userId ≠ user.id then
      ⟨s, Outcome.sent (errorResponse 403 "수정 권한 없음")⟩
    else
      match Comment.save s now comment (field req.body "content") with
      | Except.error _ => ⟨s, Outcome.fault⟩
      | Except.ok (s', comment') => ⟨s', ok comment'.toJson⟩

/-- `PUT /api/comments/:id`. -/
def updateComment (E : Env) (now : Nat) (s : Store) (req : Req) : Result :=
  guarded E now s req (updateCommentHandler now s req)

/-- The handler of `PUT /api/posts/:id` (lines 240-252). -/
def updatePostHandler (now : Nat) (s : Store) (req : Req) (user : Principal) : Result :=
  match Post.findByPk s req.id with
  | none => ⟨s, Outcome.sent (errorResponse 404 "게시글 없음")⟩
  | some post =>
    if user.role ≠ Role.admin ∧ post.userId ≠ user.id then
      ⟨s, Outcome.sent (errorResponse 403 "수정 권한이 없습니다.")⟩
    else
      match Post.save s now post (field req.body "title") (field req.body "content") with
      | Except.error _ => ⟨s, Outcome.fault⟩
      | Except.ok (s', post') => ⟨s', ok post'.toJson⟩

/-- `PUT /api/posts/:id`. -/
def updatePost (E : Env) (now : Nat) (s : Store) (req : Req) : Result :=
  guarded E now s req (updatePostHandler now s req)

/-- The handler of `DELETE /api/posts/:id` (lines 256-266). -/
def deletePostHandler (s : Store) (req : Req) (user : Principal) : Result :=
  match Post.findByPk s req.id with
  | none => ⟨s, Outcome.sent (errorResponse 404 "게시글 없음")⟩
  | some post =>
    if user.role ≠ Role.admin ∧ post.userId ≠ user.id then
      ⟨s, Outcome.sent (errorResponse 403 "삭제 권한이 없습니다.")⟩
    else
      ⟨Post.destroy s post, ok (JVal.obj [("message", JVal.str "삭제 완료")])⟩

/-- `DELETE /api/posts/:id`. -/
def deletePost (E : Env) (now : Nat) (s : Store) (req : Req) : Result :=
  guarded E now s req (deletePostHandler s req)

/-! ## The libraries, modelled from the specification -/

/-- The value of a decimal digit character. -/
def digitVal (c : Char) : Option Nat :=
  if 48 ≤ c.toNat ∧ c.toNat ≤ 57 then some (c.toNat - 48) else none

/-- Reading a run of decimal digits, least significant first: the number and what follows. -/
def decodeNat : List Char → Option (Nat × List Char)
  | [] => none
  | c :: cs =>
    match digitVal c with
    | none => none
    | some d =>
      match decodeNat cs with
      | some (v, rest) => some (d + 10 * v, rest)
      | none => some (d, cs)

/-- The character of a role in a token. -/
def roleChar : Role → Char
  | Role.user => 'u'
  | Role.admin => 'a'

/-- The role of a character in a token. -/
def charRole (c : Char) : Option Role :=
  if c = 'u' then some Role.user else if c = 'a' then some Role.admin else none

/-- Modelled from the spec: `jwt.sign` of the library `jsonwebtoken`, which is
not under `src/`. Section 4.2: `issue(accountId, role)` produces a signed
payload `accountId, role, issuedAt, expiresAt = issuedAt + lifetime` under a
symmetric secret. The token is the four fields followed by the secret, with
dots between them. -/
def jwtSign (payload : Principal) (secret : String) (lifetime now : Nat) : String :=
  String.mk
    (encodeNat payload.id ++ '.' :: roleChar payload.role :: '.' :: (encodeNat now ++
      '.' :: (encodeNat (now + lifetime) ++ '.' :: secret.toList)))

/-- Reading the four fields of a token and the signature that follows them. -/
def jwtDecode (token : List Char) : Option (Principal × Nat × Nat × List Char) :=
  match decodeNat token with
  | some (id, '.' :: r :: '.' :: rest1) =>
    match charRole r, decodeNat rest1 with
    | some role, some (iat, '.' :: rest2) =>
      match decodeNat rest2 with
      | some (exp, '.' :: sig) => some (⟨id, role⟩, iat, exp, sig)
      | _ => none
    | _, _ => none
  | _ => none

/-- Modelled from the spec: `jwt.verify` of the library `jsonwebtoken`, which
is not under `src/`. Section 4.2: `verify(token)` gives `accountId, role` or
fails, and it fails on a malformed payload, on a signature mismatch, and when
the current time has reached `expiresAt`. -/
def jwtVerify (token secret : String) (now : Nat) : Option Principal :=
  match jwtDecode token.toList with
  | some (payload, _, exp, sig) =>
    if sig = secret.toList ∧ now < exp then some payload else none
  | none => none

/-- Modelled from the spec: `bcrypt.hash` of the library `bcrypt`, which is
not under `src/`. Section 4.1: `hash(plaintext)` gives a digest. The digest is
the plaintext behind a fixed tag; on a value that is not a string the model
throws. -/
def bcryptHash (password : JVal) : Option String :=
  match password with
  | JVal.str p => some ("$2b$10$" ++ p)
  | _ => none

/-- Modelled from the spec: `bcrypt.compare` of the library `bcrypt`, which is
not under `src/`. Section 4.1: `verify(plaintext, digest)` is true exactly for
the digest of the plaintext; on a value that is not a string the model
throws. -/
def bcryptCompare (password : JVal) (hash : String) : Option Bool :=
  match password with
  | JVal.str p => some (hash == "$2b$10$" ++ p)
  | _ => none

/-- The environment made of the modelled libraries, over a database that
checks its foreign keys. -/
def specEnv : Env :=
  ⟨bcryptHash, bcryptCompare, jwtSign, jwtVerify, true⟩

/-! ## Read handlers -/

/-- The included association `User` with `attributes: ["name"]`; `null` when no row matches. -/
def includeUser (s : Store) (userId : Nat) : JVal :=
  match User.findByPk s userId with
  | some u => JVal.obj [("name", JVal.str u.name)]
  | none => JVal.null

/-- The included association `Post` with `attributes: ["title", "id"]`; `null` when no row matches. -/
def includePost (s : Store) (postId : Nat) : JVal :=
  match Post.findByPk s postId with
  | some p => JVal.obj [("title", JVal.str p.title), ("id", JVal.num p.id)]
  | none => JVal.null

/-- Rows in the order `[["id", "ASC"]]`. -/
def ascending {α : Type} (key : α → Nat) (rows : List α) : List α :=
  rows.insertionSort (fun a b => key a ≤ key b)

/-- Rows in the order `[["id", "DESC"]]`. -/
def descending {α : Type} (key : α → Nat) (rows : List α) : List α :=
  rows.insertionSort (fun a b => key b ≤ key a)

/-- `GET /api/posts/:id/comments` (lines 158-166). -/
def listComments (s : Store) (req : Req) : Result :=
  let postId := req.id
  let comments := ascending Comment.id (s.comments.filter (fun c => c.postId == postId))
  ⟨s, ok (JVal.arr (comments.map (fun c =>
    JVal.obj
      [("id", JVal.num c.id), ("content", JVal.str c.content), ("userId", JVal.num c.userId),
       ("postId", JVal.num c.postId), ("createdAt", JVal.num c.createdAt),
       ("updatedAt", JVal.num c.updatedAt), ("User", includeUser s c.userId)])))⟩

/-- `GET /api/posts` (lines 196-203). -/
def listPosts (s : Store) : Result :=
  let posts := descending Post.id s.posts
  ⟨s, ok (JVal.arr (posts.map (fun p =>
    JVal.obj
      [("id", JVal.num p.id), ("title", JVal.str p.title), ("content", JVal.str p.content),
       ("userId", JVal.num p.userId), ("createdAt", JVal.num p.createdAt),
       ("User", includeUser s p.userId)])))⟩

/-- The handler of `GET /api/myposts` (lines 206-213). -/
def listMyPostsHandler (s : Store) (user : Principal) : Result :=
  let posts := descending Post.id (s.posts.filter (fun p => p.userId == user.id))
  ⟨s, ok (JVal.arr (posts.map (fun p =>
    JVal.obj
      [("id", JVal.num p.id), ("title", JVal.str p.title), ("content", JVal.str p.content),
       ("createdAt", JVal.num p.createdAt)])))⟩

/-- `GET /api/myposts`. -/
def listMyPosts (E : Env) (now : Nat) (s : Store) (req : Req) : Result :=
  guarded E now s req (listMyPostsHandler s)

/-- `GET /api/posts/:id` (lines 215-221). -/
def getPost (s : Store) (req : Req) : Result :=
  match Post.findByPk s req.id with
  | none => ⟨s, Outcome.sent (errorResponse 404 "게시글 없음")⟩
  | some p =>
    ⟨s, ok (JVal.obj
      [("id", JVal.num p.id), ("title", JVal.str p.title), ("content", JVal.str p.content),
       ("userId", JVal.num p.userId), ("createdAt", JVal.num p.createdAt),
       ("updatedAt", JVal.num p.updatedAt), ("User", includeUser s p.userId)])⟩

/-- The handler of `GET /api/mycomments` (lines 223-233). -/
def listMyCommentsHandler (s : Store) (user : Principal) : Result :=
  let comments := descending Comment.id (s.comments.filter (fun c => c.userId == user.id))
  ⟨s, ok (JVal.arr (comments.map (fun c =>
    JVal.obj
      [("id", JVal.num c.id), ("content", JVal.str c.content), ("userId", JVal.num c.userId),
       ("postId", JVal.num c.postId), ("createdAt", JVal.num c.createdAt),
       ("updatedAt", JVal.num c.updatedAt), ("Post", includePost s c.postId),
       ("User", includeUser s c.userId)])))⟩

/-- `GET /api/mycomments`. -/
def listMyComments (E : Env) (now : Nat) (s : Store) (req : Req) : Result :=
  guarded E now s req (listMyCommentsHandler s)

/-! ## The policy in the words of the specification -/

/-- The authorization policy as section 4.4 of the specification words it:
`principal.role == administrator OR principal.id == resourceOwnerId`. -/
def canMutate (principal : Principal) (resourceOwnerId : Nat) : Bool :=
  principal.role == Role.admin || principal.id == resourceOwnerId

/-- The status of the response a handler sent, if it sent one. -/
def Outcome.status : Outcome → Option Nat
  | Outcome.sent r => some r.status
  | Outcome.fault => none

/-! ## Sample data for concrete evaluation -/

/-- An account with the default role. -/
def alice : User := ⟨1, "alice", "$2b$10$pw1", "Alice", Role.user, 10, 10⟩

/-- A second account with the default role. -/
def bob : User := ⟨2, "bob", "$2b$10$pw2", "Bob", Role.user, 11, 11⟩

/-- An account whose stored role is administrator. -/
def root : User := ⟨3, "root", "$2b$10$pw3", "Root", Role.admin, 12, 12⟩

/-- A store with three accounts, a post of `alice` and a comment of `bob` on it. -/
def sampleStore : Store :=
  ⟨[alice, bob, root], [⟨1, "hello", "first post", 1, 20, 20⟩], [⟨1, "nice", 2, 1, 30, 30⟩],
    4, 2, 2⟩

/-- A request with a bearer token, a route parameter and a body. -/
def sampleReq (token : String) (id : Nat) (body : List (String × JVal)) : Req :=
  ⟨some ("Bearer " ++ token), id, body⟩

/-- The token `login` issues to `alice` at time 100. -/
def aliceToken : String := jwtSign ⟨1, Role.user⟩ SECRET sevenDays 100

/-- The token `login` issues to `bob` at time 100. -/
def bobToken : String := jwtSign ⟨2, Role.user⟩ SECRET sevenDays 100

/-- The token `login` issues to `root` at time 100. -/
def rootToken : String := jwtSign ⟨3, Role.admin⟩ SECRET sevenDays 100

mutual
/-- Whether a property named `k` occurs anywhere in a JSON value. -/
def JVal.mentions (k : String) : JVal → Bool
  | JVal.obj kvs => mentionsFields k kvs
  | JVal.arr xs => mentionsList k xs
  | _ => false
/-- Whether a property named `k` occurs anywhere in a list of JSON values. -/
def mentionsList (k : String) : List JVal → Bool
  | [] => false
  | x :: xs => x.mentions k || mentionsList k xs
/-- Whether a property named `k` occurs among or below the properties of an object. -/
def mentionsFields (k : String) : List (String × JVal) → Bool
  | [] => false
  | (key, v) :: rest => key == k || v.mentions k || mentionsFields k rest
end

/-- Property access `v.k` on a JSON value. -/
def JVal.get (v : JVal) (k : String) : JVal :=
  match v with
  | JVal.obj kvs => field kvs k
  | _ => JVal.undefined

/-- Whether the response a handler sent has a property `k` somewhere in its body. -/
def Outcome.carries (k : String) : Outcome → Bool
  | Outcome.sent r => r.body.mentions k
  | Outcome.fault => false

/-- The body of the response a handler sent; `undefined` when it sent none. -/
def Outcome.body : Outcome → JVal
  | Outcome.sent r => r.body
  | Outcome.fault => JVal.undefined

/-- A login or registration request with the given body. -/
def anonymousReq (body : List (String × JVal)) : Req :=
  ⟨none, 0, body⟩

/-- The columns of a post that no update may change: id, owner, creation time. -/
def Post.frame (p : Post) : Nat × Nat × Nat :=
  (p.id, p.userId, p.createdAt)

/-- The columns of a comment that no update may change: id, owner, post
reference, creation time. -/
def Comment.frame (c : Comment) : Nat × Nat × Nat × Nat :=
  (c.id, c.userId, c.postId, c.createdAt)

/-- The sample store after the role of `alice` was raised to administrator
and the account of `bob` was removed from the accounts table alone. -/
def sampleStoreChanged : Store :=
  { sampleStore with users := [{ alice with role := Role.admin }, root] }

/-- The registration and login body of a new account `carol`. -/
def carolBody : List (String × JVal) :=
  [("username", JVal.str "carol"), ("password", JVal.str "pw4"), ("name", JVal.str "Carol")]

/-- The token `login` issues to `carol`, registered into the sample store, at time 100. -/
def carolToken : String := jwtSign ⟨4, Role.user⟩ SECRET sevenDays 100

/-- The sample store after `carol` registered at time 90 and created a post at time 110. -/
def storeWithCarolPost : Store :=
  (createPost specEnv 110 (register specEnv 90 sampleStore (anonymousReq carolBody)).store
    (sampleReq carolToken 0 [("title", JVal.str "mine"), ("content", JVal.str "text")])).store

/-! ## The gate and the guarded routes -/

theorem guarded_next {E : Env} {now : Nat} {s : Store} {req : Req} {P : Principal}
    (handler : Principal → Result) (hg : auth E now req = Gate.next P) :
    guarded E now s req handler = handler P := by
  simp [guarded, hg]

theorem guarded_reject {E : Env} {now : Nat} {s : Store} {req : Req} {r : Response}
    (handler : Principal → Result) (hg : auth E now req = Gate.reject r) :
    guarded E now s req handler = ⟨s, Outcome.sent r⟩ := by
  simp [guarded, hg]

theorem find_none_of_absent {α : Type} (l : List α) (key : α → Nat) (id : Nat)
    (h : ∀ x ∈ l, key x ≠ id) : l.find? (fun x => key x == id) = none := by
  rw [List.find?_eq_none]
  intro x hx
  simpa using h x hx

/-! ## C2: a missing target is reported before ownership is looked at -/

/-- C2. For every request that passed the gate as any principal (administrator
included) and whose `:id` is the id of no comment (of no post), the comment
(post) update and delete routes answer 404 with the not-found message, never
403, and leave the store unchanged. -/
theorem missing_target_is_not_found (E : Env) (now : Nat) (s : Store) (req : Req)
    (P : Principal) (hgate : auth E now req = Gate.next P) :
    ((∀ c ∈ s.comments, c.id ≠ req.id) →
      deleteComment E now s req = ⟨s, Outcome.sent (errorResponse 404 "댓글 없음")⟩ ∧
      updateComment E now s req = ⟨s, Outcome.sent (errorResponse 404 "댓글 없음")⟩) ∧
    ((∀ p ∈ s.posts, p.id ≠ req.id) →
      updatePost E now s req = ⟨s, Outcome.sent (errorResponse 404 "게시글 없음")⟩ ∧
      deletePost E now s req = ⟨s, Outcome.sent (errorResponse 404 "게시글 없음")⟩) := by
  constructor
  · intro h
    have hf : Comment.findByPk s req.id = none := find_none_of_absent s.comments _ _ h
    simp [deleteComment, updateComment, guarded_next _ hgate, deleteCommentHandler,
      updateCommentHandler, hf]
  · intro h
    have hf : Post.findByPk s req.id = none := find_none_of_absent s.posts _ _ h
    simp [deletePost, updatePost, guarded_next _ hgate, deletePostHandler,
      updatePostHandler, hf]

/-- C2 at a concrete input: the administrator `root` targets id 7, which no
comment and no post has. -/
theorem missing_target_is_not_found_witness :
    auth specEnv 200 (sampleReq rootToken 7 []) = Gate.next ⟨3, Role.admin⟩ ∧
    (deletePost specEnv 200 sampleStore (sampleReq rootToken 7 [])).out.status = some 404 ∧
    (deletePost specEnv 200 sampleStore (sampleReq rootToken 7 [])).store = sampleStore ∧
    (updateComment specEnv 200 sampleStore (sampleReq rootToken 7 [])).out.status = some 404 := by
  have hg : auth specEnv 200 (sampleReq rootToken 7 []) = Gate.next ⟨3, Role.admin⟩ := by rfl
  have h := missing_target_is_not_found specEnv 200 sampleStore (sampleReq rootToken 7 [])
    ⟨3, Role.admin⟩ hg
  have hc := h.1 (by decide)
  have hp := h.2 (by decide)
  refine ⟨hg, ?_, ?_, ?_⟩
  · rw [hp.2]; rfl
  · rw [hp.2]
  · rw [hc.2]; rfl

/-! ## C1: owner or administrator -/

theorem guard_iff_canMutate (P : Principal) (owner : Nat) :
    (P.role ≠ Role.admin ∧ owner ≠ P.id) ↔ canMutate P owner = false := by
  cases P with
  | mk id role =>
    cases role
    · simp only [canMutate, ne_eq, reduceCtorEq, not_false_eq_true, true_and]
      constructor
      · intro h
        simpa using fun e : id = owner => h e.symm
      · intro h e
        simp [e] at h
    · simp [canMutate]

theorem deleteComment_allowed {s : Store} {req : Req} {P : Principal} {c : Comment}
    (hf : Comment.findByPk s req.id = some c) (h : canMutate P c.userId = true) :
    deleteCommentHandler s req P =
      ⟨Comment.destroy s c, ok (JVal.obj [("message", JVal.str "삭제 완료")])⟩ := by
  have hg : ¬ (P.role ≠ Role.admin ∧ c.userId ≠ P.id) := by
    rw [guard_iff_canMutate, h]; simp
  simp only [deleteCommentHandler, hf, if_neg hg]

theorem deleteComment_denied {s : Store} {req : Req} {P : Principal} {c : Comment}
    (hf : Comment.findByPk s req.id = some c) (h : canMutate P c.userId = false) :
    deleteCommentHandler s req P = ⟨s, Outcome.sent (errorResponse 403 "삭제 권한 없음")⟩ := by
  have hg : P.role ≠ Role.admin ∧ c.userId ≠ P.id := (guard_iff_canMutate P c.userId).2 h
  simp only [deleteCommentHandler, hf, if_pos hg]

theorem updateComment_allowed {now : Nat} {s : Store} {req : Req} {P : Principal}
    {c : Comment} {t : String}
    (hf : Comment.findByPk s req.id = some c) (h : canMutate P c.userId = true)
    (hb : field req.body "content" = JVal.str t) :
    updateCommentHandler now s req P =
      if t = c.content then ⟨s, ok c.toJson⟩
      else
        ⟨{ s with comments := s.comments.map (fun x =>
            if x.id = c.id then { x with content := t, updatedAt := now } else x) },
          ok ({ c with content := t, updatedAt := now } : Comment).toJson⟩ := by
  have hg : ¬ (P.role ≠ Role.admin ∧ c.userId ≠ P.id) := by
    rw [guard_iff_canMutate, h]; simp
  simp only [updateCommentHandler, hf, if_neg hg, hb, Comment.save, text]
  by_cases ht : t = c.content
  · simp only [if_pos ht]
  · simp only [if_neg ht]

theorem updateComment_denied {now : Nat} {s : Store} {req : Req} {P : Principal} {c : Comment}
    (hf : Comment.findByPk s req.id = some c) (h : canMutate P c.userId = false) :
    updateCommentHandler now s req P =
      ⟨s, Outcome.sent (errorResponse 403 "수정 권한 없음")⟩ := by
  have hg : P.role ≠ Role.admin ∧ c.userId ≠ P.id := (guard_iff_canMutate P c.userId).2 h
  simp only [updateCommentHandler, hf, if_pos hg]

theorem deletePost_allowed {s : Store} {req : Req} {P : Principal} {p : Post}
    (hf : Post.findByPk s req.id = some p) (h : canMutate P p.userId = true) :
    deletePostHandler s req P =
      ⟨Post.destroy s p, ok (JVal.obj [("message", JVal.str "삭제 완료")])⟩ := by
  have hg : ¬ (P.role ≠ Role.admin ∧ p.userId ≠ P.id) := by
    rw [guard_iff_canMutate, h]; simp
  simp only [deletePostHandler, hf, if_neg hg]

theorem deletePost_denied {s : Store} {req : Req} {P : Principal} {p : Post}
    (hf : Post.findByPk s req.id = some p) (h : canMutate P p.userId = false) :
    deletePostHandler s req P =
      ⟨s, Outcome.sent (errorResponse 403 "삭제 권한이 없습니다.")⟩ := by
  have hg : P.role ≠ Role.admin ∧ p.userId ≠ P.id := (guard_iff_canMutate P p.userId).2 h
  simp only [deletePostHandler, hf, if_pos hg]

theorem updatePost_allowed {now : Nat} {s : Store} {req : Req} {P : Principal} {p : Post}
    {t c : String}
    (hf : Post.findByPk s req.id = some p) (h : canMutate P p.userId = true)
    (ht : field req.body "title" = JVal.str t) (hc : field req.body "content" = JVal.str c) :
    updatePostHandler now s req P =
      if t = p.title ∧ c = p.content then ⟨s, ok p.toJson⟩
      else
        ⟨{ s with posts := s.posts.map (fun x =>
            if x.id = p.id then { x with title := t, content := c, updatedAt := now } else x) },
          ok ({ p with title := t, content := c, updatedAt := now } : Post).toJson⟩ := by
  have hg : ¬ (P.role ≠ Role.admin ∧ p.userId ≠ P.id) := by
    rw [guard_iff_canMutate, h]; simp
  simp only [updatePostHandler, hf, if_neg hg, ht, hc, Post.save, text]
  by_cases hsame : t = p.title ∧ c = p.content
  · simp only [if_pos hsame]
  · simp only [if_neg hsame]

theorem updatePost_denied {now : Nat} {s : Store} {req : Req} {P : Principal} {p : Post}
    (hf : Post.findByPk s req.id = some p) (h : canMutate P p.userId = false) :
    updatePostHandler now s req P =
      ⟨s, Outcome.sent (errorResponse 403 "수정 권한이 없습니다.")⟩ := by
  have hg : P.role ≠ Role.admin ∧ p.userId ≠ P.id := (guard_iff_canMutate P p.userId).2 h
  simp only [updatePostHandler, hf, if_pos hg]

/-- C1, as the code has it. For every principal `P` that passed the gate and
every existing comment `c` (post `p`) with the requested id: when
`canMutate P owner` holds, the delete route removes the row (a post with its
comments) and answers 200, and the update route, for a body whose updated
fields are strings, answers 200 with the row after the update: it writes those
fields and the `updatedAt` of the row, or nothing when the fields are the
stored ones; when `canMutate P owner` fails, both routes answer 403 and leave
the store unchanged. The decision is `canMutate` of the principal
and the owner id of the row in all four routes. -/
theorem mutation_iff_canMutate (E : Env) (now : Nat) (s : Store) (req : Req) (P : Principal)
    (hgate : auth E now req = Gate.next P) :
    (∀ c, Comment.findByPk s req.id = some c →
      (canMutate P c.userId = true →
        deleteComment E now s req =
          ⟨Comment.destroy s c, ok (JVal.obj [("message", JVal.str "삭제 완료")])⟩ ∧
        ∀ t, field req.body "content" = JVal.str t →
          updateComment E now s req =
            if t = c.content then ⟨s, ok c.toJson⟩
            else
              ⟨{ s with comments := s.comments.map (fun x =>
                  if x.id = c.id then { x with content := t, updatedAt := now } else x) },
                ok ({ c with content := t, updatedAt := now } : Comment).toJson⟩) ∧
      (canMutate P c.userId = false →
        deleteComment E now s req = ⟨s, Outcome.sent (errorResponse 403 "삭제 권한 없음")⟩ ∧
        updateComment E now s req = ⟨s, Outcome.sent (errorResponse 403 "수정 권한 없음")⟩) ∧
      ((deleteComment E now s req).out.status = some 200 ↔ canMutate P c.userId = true) ∧
      (∀ t, field req.body "content" = JVal.str t →
        ((updateComment E now s req).out.status = some 200 ↔ canMutate P c.userId = true))) ∧
    (∀ p, Post.findByPk s req.id = some p →
      (canMutate P p.userId = true →
        deletePost E now s req =
          ⟨Post.destroy s p, ok (JVal.obj [("message", JVal.str "삭제 완료")])⟩ ∧
        ∀ t c, field req.body "title" = JVal.str t → field req.body "content" = JVal.str c →
          updatePost E now s req =
            if t = p.title ∧ c = p.content then ⟨s, ok p.toJson⟩
            else
              ⟨{ s with posts := s.posts.map (fun x =>
                  if x.id = p.id then
                    { x with title := t, content := c, updatedAt := now } else x) },
                ok ({ p with title := t, content := c, updatedAt := now } : Post).toJson⟩) ∧
      (canMutate P p.userId = false →
        deletePost E now s req =
          ⟨s, Outcome.sent (errorResponse 403 "삭제 권한이 없습니다.")⟩ ∧
        updatePost E now s req =
          ⟨s, Outcome.sent (errorResponse 403 "수정 권한이 없습니다.")⟩) ∧
      ((deletePost E now s req).out.status = some 200 ↔ canMutate P p.userId = true) ∧
      (∀ t c, field req.body "title" = JVal.str t → field req.body "content" = JVal.str c →
        ((updatePost E now s req).out.status = some 200 ↔ canMutate P p.userId = true))) := by
  simp only [deleteComment, updateComment, deletePost, updatePost, guarded_next _ hgate]
  constructor
  · intro c hf
    refine ⟨fun h => ⟨deleteComment_allowed hf h, fun t hb => updateComment_allowed hf h hb⟩,
      fun h => ⟨deleteComment_denied hf h, updateComment_denied hf h⟩, ?_, ?_⟩
    · cases h : canMutate P c.userId
      · rw [deleteComment_denied hf h]; simp [Outcome.status, errorResponse]
      · rw [deleteComment_allowed hf h]; simp [Outcome.status, ok]
    · intro t hb
      cases h : canMutate P c.userId
      · rw [updateComment_denied hf h]; simp [Outcome.status, errorResponse]
      · rw [updateComment_allowed hf h hb]
        by_cases hsame : t = c.content <;> simp [hsame, Outcome.status, ok]
  · intro p hf
    refine ⟨fun h => ⟨deletePost_allowed hf h, fun t c ht hc => updatePost_allowed hf h ht hc⟩,
      fun h => ⟨deletePost_denied hf h, updatePost_denied hf h⟩, ?_, ?_⟩
    · cases h : canMutate P p.userId
      · rw [deletePost_denied hf h]; simp [Outcome.status, errorResponse]
      · rw [deletePost_allowed hf h]; simp [Outcome.status, ok]
    · intro t c ht hc
      cases h : canMutate P p.userId
      · rw [updatePost_denied hf h]; simp [Outcome.status, errorResponse]
      · rw [updatePost_allowed hf h ht hc]
        by_cases hsame : t = p.title ∧ c = p.content <;> simp [hsame, Outcome.status, ok]

/-- C1 at concrete inputs, on the post of `alice`: `bob`, who is neither its
owner nor an administrator, is refused with 403 and nothing changes; the
administrator `root` rewrites it. -/
theorem mutation_iff_canMutate_witness :
    auth specEnv 200 (sampleReq bobToken 1 [("title", JVal.str "x"), ("content", JVal.str "y")]) =
      Gate.next ⟨2, Role.user⟩ ∧
    (updatePost specEnv 200 sampleStore
      (sampleReq bobToken 1 [("title", JVal.str "x"), ("content", JVal.str "y")])).out.status =
      some 403 ∧
    (updatePost specEnv 200 sampleStore
      (sampleReq bobToken 1 [("title", JVal.str "x"), ("content", JVal.str "y")])).store =
      sampleStore ∧
    auth specEnv 200 (sampleReq rootToken 1 [("title", JVal.str "x"), ("content", JVal.str "y")]) =
      Gate.next ⟨3, Role.admin⟩ ∧
    (updatePost specEnv 200 sampleStore
      (sampleReq rootToken 1 [("title", JVal.str "x"), ("content", JVal.str "y")])).out.status =
      some 200 ∧
    (updatePost specEnv 200 sampleStore
      (sampleReq rootToken 1 [("title", JVal.str "x"), ("content", JVal.str "y")])).store.posts =
      [⟨1, "x", "y", 1, 20, 200⟩] := by
  have hg : auth specEnv 200
      (sampleReq bobToken 1 [("title", JVal.str "x"), ("content", JVal.str "y")]) =
      Gate.next ⟨2, Role.user⟩ := by rfl
  have h := ((mutation_iff_canMutate specEnv 200 sampleStore
    (sampleReq bobToken 1 [("title", JVal.str "x"), ("content", JVal.str "y")])
    ⟨2, Role.user⟩ hg).2 ⟨1, "hello", "first post", 1, 20, 20⟩ (by rfl)).2.1 (by decide)
  have hg2 : auth specEnv 200
      (sampleReq rootToken 1 [("title", JVal.str "x"), ("content", JVal.str "y")]) =
      Gate.next ⟨3, Role.admin⟩ := by rfl
  have h2 := (((mutation_iff_canMutate specEnv 200 sampleStore
    (sampleReq rootToken 1 [("title", JVal.str "x"), ("content", JVal.str "y")])
    ⟨3, Role.admin⟩ hg2).2 ⟨1, "hello", "first post", 1, 20, 20⟩ (by rfl)).1 (by decide)).2
    "x" "y" (by rfl) (by rfl)
  refine ⟨hg, ?_, ?_, hg2, ?_, ?_⟩
  · rw [h.2]; rfl
  · rw [h.2]
  · rw [h2]; rfl
  · rw [h2]; rfl

/-- C1 fails as stated: `alice` owns post 1 and passes the gate, so
`canMutate` holds, yet her update request with an empty body neither succeeds
nor is refused: saving the row throws on the missing required fields. -/
theorem owner_update_without_fields_faults :
    auth specEnv 200 (sampleReq aliceToken 1 []) = Gate.next ⟨1, Role.user⟩ ∧
    Post.findByPk sampleStore 1 = some ⟨1, "hello", "first post", 1, 20, 20⟩ ∧
    canMutate ⟨1, Role.user⟩ 1 = true ∧
    (updatePost specEnv 200 sampleStore (sampleReq aliceToken 1 [])).out.status = none ∧
    (updatePost specEnv 200 sampleStore (sampleReq aliceToken 1 [])).store = sampleStore := by
  refine ⟨by rfl, by rfl, by rfl, by rfl, by rfl⟩

/-! ## C3: the three outcomes of the gate -/

/-- C3. For every request, `auth` does one of three things, decided by the
token it extracts. With no token (`undefined` or the empty string) it answers
401 and a guarded route ends with that response and the store untouched,
whatever its handler is. With a token whose verification throws it answers 403
in the same way. With a token that verifies it sends nothing: it hands the
decoded principal over, and the guarded route is the handler run on it. -/
theorem auth_three_outcomes (E : Env) (now : Nat) (req : Req) :
    ((bearerToken req.authorization = none ∨ bearerToken req.authorization = some "") →
      auth E now req = Gate.reject (errorResponse 401 "로그인이 필요합니다.") ∧
      ∀ (s : Store) (handler : Principal → Result),
        guarded E now s req handler =
          ⟨s, Outcome.sent (errorResponse 401 "로그인이 필요합니다.")⟩) ∧
    (∀ token, bearerToken req.authorization = some token → token ≠ "" →
      (E.jwtVerify token SECRET now = none →
        auth E now req = Gate.reject (errorResponse 403 "토큰이 유효하지 않습니다.") ∧
        ∀ (s : Store) (handler : Principal → Result),
          guarded E now s req handler =
            ⟨s, Outcome.sent (errorResponse 403 "토큰이 유효하지 않습니다.")⟩) ∧
      (∀ P, E.jwtVerify token SECRET now = some P →
        auth E now req = Gate.next P ∧
        ∀ (s : Store) (handler : Principal → Result),
          guarded E now s req handler = handler P)) := by
  refine ⟨?_, ?_⟩
  · intro h
    have ha : auth E now req = Gate.reject (errorResponse 401 "로그인이 필요합니다.") := by
      rcases h with h | h <;> simp [auth, h]
    exact ⟨ha, fun s handler => guarded_reject handler ha⟩
  · intro token ht hne
    refine ⟨?_, ?_⟩
    · intro hv
      have ha : auth E now req =
          Gate.reject (errorResponse 403 "토큰이 유효하지 않습니다.") := by
        simp [auth, ht, hne, hv]
      exact ⟨ha, fun s handler => guarded_reject handler ha⟩
    · intro P hv
      have ha : auth E now req = Gate.next P := by
        simp [auth, ht, hne, hv]
      exact ⟨ha, fun s handler => guarded_next handler ha⟩

/-- C3 at concrete inputs: no header, a garbled token, and the token of `alice`,
each on `DELETE /api/posts/1`. -/
theorem auth_three_outcomes_witness :
    (deletePost specEnv 200 sampleStore ⟨none, 1, []⟩).out.status = some 401 ∧
    (deletePost specEnv 200 sampleStore ⟨some "Bearer garbled", 1, []⟩).out.status = some 403 ∧
    (deletePost specEnv 200 sampleStore ⟨some "Bearer garbled", 1, []⟩).store = sampleStore ∧
    deletePost specEnv 200 sampleStore (sampleReq aliceToken 1 []) =
      deletePostHandler sampleStore (sampleReq aliceToken 1 []) ⟨1, Role.user⟩ := by
  have h1 := (auth_three_outcomes specEnv 200 ⟨none, 1, []⟩).1 (Or.inl (by rfl))
  have h2 := ((auth_three_outcomes specEnv 200 ⟨some "Bearer garbled", 1, []⟩).2
    "garbled" (by rfl) (by decide)).1 (by rfl)
  have h3 := ((auth_three_outcomes specEnv 200 (sampleReq aliceToken 1 [])).2
    aliceToken (by rfl) (by decide)).2 ⟨1, Role.user⟩ (by rfl)
  refine ⟨?_, ?_, ?_, ?_⟩
  · rw [deletePost, h1.2]; rfl
  · rw [deletePost, h2.2]; rfl
  · rw [deletePost, h2.2]
  · rw [deletePost, h3.2]

/-! ## C4: the scheme word of the header -/

theorem splitOnChar_of_not_mem (sep : Char) (l : List Char) (h : sep ∉ l) :
    splitOnChar sep l = [l] := by
  induction l with
  | nil => rfl
  | cons c cs ih =>
    have hc : c ≠ sep := fun e => h (by simp [e])
    have hcs : sep ∉ cs := fun e => h (by simp [e])
    simp [splitOnChar, hc, ih hcs]

theorem splitOnChar_append (sep : Char) (l r : List Char) (h : sep ∉ l) :
    splitOnChar sep (l ++ sep :: r) = l :: splitOnChar sep r := by
  induction l with
  | nil => simp [splitOnChar]
  | cons c cs ih =>
    have hc : c ≠ sep := fun e => h (by simp [e])
    have hcs : sep ∉ cs := fun e => h (by simp [e])
    simp [splitOnChar, hc, ih hcs]

theorem bearerToken_two_fields (scheme token : String)
    (hs : Char.ofNat 32 ∉ scheme.toList) (ht : Char.ofNat 32 ∉ token.toList) :
    bearerToken (some (scheme ++ " " ++ token)) = some token := by
  have hl : (scheme ++ " " ++ token).toList =
      scheme.toList ++ Char.ofNat 32 :: token.toList := by
    simp [String.toList]
  simp only [bearerToken, jsSplit, hl, splitOnChar_append _ _ _ hs,
    splitOnChar_of_not_mem _ _ ht]
  rfl

theorem bearerToken_empty_field (scheme : String) (hs : Char.ofNat 32 ∉ scheme.toList) :
    bearerToken (some (scheme ++ " ")) = some "" := by
  have hl : (scheme ++ " ").toList = scheme.toList ++ Char.ofNat 32 :: [] := by
    simp [String.toList]
  simp only [bearerToken, jsSplit, hl, splitOnChar_append _ _ _ hs, splitOnChar]
  rfl

theorem bearerToken_one_field (h : String) (hs : Char.ofNat 32 ∉ h.toList) :
    bearerToken (some h) = none := by
  simp only [bearerToken, jsSplit, splitOnChar_of_not_mem _ _ hs]
  rfl

/-- C4, as the code has it. The gate never looks at the scheme word: for every
header `scheme token` made of two fields without spaces around one space, the
second one not empty, the gate passes `token` to verification and answers by
its result, whatever `scheme` is. It answers 401 when the header is absent,
holds no space, or ends right after its first space. -/
theorem auth_ignores_scheme (E : Env) (now id : Nat) (body : List (String × JVal))
    (scheme token : String)
    (hs : Char.ofNat 32 ∉ scheme.toList) (ht : Char.ofNat 32 ∉ token.toList)
    (hne : token ≠ "") :
    (∀ P, E.jwtVerify token SECRET now = some P →
      auth E now ⟨some (scheme ++ " " ++ token), id, body⟩ = Gate.next P) ∧
    (E.jwtVerify token SECRET now = none →
      auth E now ⟨some (scheme ++ " " ++ token), id, body⟩ =
        Gate.reject (errorResponse 403 "토큰이 유효하지 않습니다.")) ∧
    auth E now ⟨some scheme, id, body⟩ = Gate.reject (errorResponse 401 "로그인이 필요합니다.") ∧
    auth E now ⟨some (scheme ++ " "), id, body⟩ =
      Gate.reject (errorResponse 401 "로그인이 필요합니다.") ∧
    auth E now ⟨none, id, body⟩ = Gate.reject (errorResponse 401 "로그인이 필요합니다.") := by
  have hb := bearerToken_two_fields scheme token hs ht
  refine ⟨?_, ?_, ?_, ?_, ?_⟩
  · intro P hv
    simp [auth, hb, hne, hv]
  · intro hv
    simp [auth, hb, hne, hv]
  · simp [auth, bearerToken_one_field scheme hs]
  · simp [auth, bearerToken_empty_field scheme hs]
  · simp [auth, bearerToken]

/-- C4 at a concrete input: the scheme word `Token` in front of the token of `alice`. -/
theorem auth_ignores_scheme_witness :
    auth specEnv 200 ⟨some ("Token" ++ " " ++ aliceToken), 1, []⟩ = Gate.next ⟨1, Role.user⟩ ∧
    auth specEnv 200 ⟨some "Token", 1, []⟩ =
      Gate.reject (errorResponse 401 "로그인이 필요합니다.") := by
  have h := auth_ignores_scheme specEnv 200 1 [] "Token" aliceToken (by decide) (by decide)
    (by decide)
  exact ⟨h.1 ⟨1, Role.user⟩ (by rfl), h.2.2.1⟩

/-- C4 fails as stated: a header that starts with `Basic ` is not treated as
carrying no token. Its second field goes to verification: the gate lets the
request through as `alice` when that field is her token, and answers 403, not
401, when it is `abc`. -/
theorem basic_scheme_reaches_verification :
    auth specEnv 200 ⟨some ("Basic " ++ aliceToken), 1, []⟩ = Gate.next ⟨1, Role.user⟩ ∧
    auth specEnv 200 ⟨some "Basic abc", 1, []⟩ =
      Gate.reject (errorResponse 403 "토큰이 유효하지 않습니다.") ∧
    (deletePost specEnv 200 sampleStore ⟨some "Basic abc", 1, []⟩).out.status = some 403 ∧
    (deletePost specEnv 200 sampleStore ⟨some ("Basic " ++ aliceToken), 1, []⟩).out.status =
      some 200 := by
  refine ⟨by rfl, by rfl, by rfl, by rfl⟩

/-! ## C5, C10: registration and login -/

theorem register_cases (E : Env) (now : Nat) (s : Store) (req : Req) :
    register E now s req = ⟨s, Outcome.fault⟩ ∨
    ∃ u h n, field req.body "username" = JVal.str u ∧ field req.body "name" = JVal.str n ∧
      E.bcryptHash (field req.body "password") = some h ∧
      (∀ x ∈ s.users, x.username ≠ u) ∧
      register E now s req =
        ⟨{ s with users := s.users ++ [⟨s.userSeq, u, h, n, Role.user, now, now⟩],
                  userSeq := s.userSeq + 1 },
          ok (JVal.obj [("message", JVal.str "회원가입 성공")])⟩ := by
  cases hh : E.bcryptHash (field req.body "password") with
  | none => left; simp [register, hh]
  | some h =>
    cases hu : field req.body "username" with
    | str u =>
      cases hn : field req.body "name" with
      | str n =>
        by_cases hx : s.users.any (fun x => x.username == u) = true
        · left
          simp [register, hh, hu, hn, User.create, text, hx]
        · right
          refine ⟨u, h, n, rfl, rfl, rfl, ?_, ?_⟩
          · intro x hmem hxu
            exact hx (List.any_eq_true.2 ⟨x, hmem, by simp [hxu]⟩)
          · simp [register, hh, hu, hn, User.create, text, hx]
      | _ => left; simp [register, hh, hu, hn, User.create, text]
    | _ =>
      left
      cases hn : field req.body "name" <;> simp [register, hh, hu, hn, User.create, text]

theorem register_success (E : Env) (now : Nat) (s : Store) (req : Req) (u h n : String)
    (hu : field req.body "username" = JVal.str u) (hn : field req.body "name" = JVal.str n)
    (hh : E.bcryptHash (field req.body "password") = some h)
    (hfresh : ∀ x ∈ s.users, x.username ≠ u) :
    register E now s req =
      ⟨{ s with users := s.users ++ [⟨s.userSeq, u, h, n, Role.user, now, now⟩],
                userSeq := s.userSeq + 1 },
        ok (JVal.obj [("message", JVal.str "회원가입 성공")])⟩ := by
  have hx : ¬ (s.users.any (fun x => x.username == u) = true) := by
    intro hany
    obtain ⟨x, hmem, hxu⟩ := List.any_eq_true.1 hany
    exact hfresh x hmem (by simpa using hxu)
  simp [register, hh, hu, hn, User.create, text, hx]

theorem login_cases (E : Env) (now : Nat) (s : Store) (req : Req) :
    (∃ u, User.findOne s (field req.body "username") = Except.ok (some u) ∧
      E.bcryptCompare (field req.body "password") u.password = some true ∧
      login E now s req =
        ⟨s, ok (JVal.obj [("token", JVal.str (E.jwtSign ⟨u.id, u.role⟩ SECRET sevenDays now)),
          ("user", u.toJson)])⟩) ∨
    ((¬ ∃ u, User.findOne s (field req.body "username") = Except.ok (some u) ∧
      E.bcryptCompare (field req.body "password") u.password = some true) ∧
      (login E now s req = ⟨s, Outcome.fault⟩ ∨
       login E now s req = ⟨s, Outcome.sent (errorResponse 401 "존재하지 않는 사용자입니다.")⟩ ∨
       login E now s req = ⟨s, Outcome.sent (errorResponse 401 "비밀번호가 틀립니다.")⟩)) := by
  cases hf : User.findOne s (field req.body "username") with
  | error e => right; simp [login, hf]
  | ok found =>
    cases found with
    | none => right; simp [login, hf]
    | some u =>
      cases hc : E.bcryptCompare (field req.body "password") u.password with
      | none => right; simp [login, hf, hc]
      | some b =>
        cases b with
        | false => right; simp [login, hf, hc]
        | true => left; exact ⟨u, rfl, hc, by simp [login, hf, hc]⟩

/-- C5, as the code has it. Login never changes the store, and its response
carries a token exactly when `findOne` gives an account for the submitted
identifier and `bcrypt.compare` accepts the submitted secret against the hash
stored in that account; the token is then the one signed for the id and role
of that account. In every other case the handler either answers 401 with an
error message and no token, or throws before answering. Registration never
answers with a token: it either throws and leaves the store unchanged, or it
adds exactly one account and answers with the success message alone. -/
theorem token_only_from_login (E : Env) (now : Nat) (s : Store) (req : Req) :
    (login E now s req).store = s ∧
    ((login E now s req).out.carries "token" = true ↔
      ∃ u, User.findOne s (field req.body "username") = Except.ok (some u) ∧
        E.bcryptCompare (field req.body "password") u.password = some true) ∧
    (∀ u, User.findOne s (field req.body "username") = Except.ok (some u) →
      E.bcryptCompare (field req.body "password") u.password = some true →
      (login E now s req).out =
        ok (JVal.obj [("token", JVal.str (E.jwtSign ⟨u.id, u.role⟩ SECRET sevenDays now)),
          ("user", u.toJson)])) ∧
    ((¬ ∃ u, User.findOne s (field req.body "username") = Except.ok (some u) ∧
        E.bcryptCompare (field req.body "password") u.password = some true) →
      (login E now s req).out = Outcome.fault ∨
      ∃ msg, (login E now s req).out = Outcome.sent (errorResponse 401 msg)) ∧
    (register E now s req).out.carries "token" = false ∧
    (register E now s req = ⟨s, Outcome.fault⟩ ∨
      ∃ u, (register E now s req).store =
          { s with users := s.users ++ [u], userSeq := s.userSeq + 1 } ∧
        (register E now s req).out = ok (JVal.obj [("message", JVal.str "회원가입 성공")])) := by
  refine ⟨?_, ?_, ?_, ?_, ?_, ?_⟩
  · rcases login_cases E now s req with ⟨u, _, _, h⟩ | ⟨_, h | h | h⟩ <;> rw [h]
  · rcases login_cases E now s req with ⟨u, hf, hc, h⟩ | ⟨hno, h | h | h⟩
    · rw [h]
      constructor
      · intro _; exact ⟨u, hf, hc⟩
      · intro _; simp [Outcome.carries, ok, JVal.mentions, mentionsFields]
    · rw [h]; simp only [Outcome.carries]; constructor
      · intro hh; simp at hh
      · intro hh; exact absurd hh hno
    · rw [h]; constructor
      · intro hh; simp [Outcome.carries, errorResponse, JVal.mentions, mentionsFields] at hh
      · intro hh; exact absurd hh hno
    · rw [h]; constructor
      · intro hh; simp [Outcome.carries, errorResponse, JVal.mentions, mentionsFields] at hh
      · intro hh; exact absurd hh hno
  · intro u hf hc
    rcases login_cases E now s req with ⟨v, hf', _, h⟩ | ⟨hno, _⟩
    · rw [hf] at hf'
      have huv : u = v := by simpa using hf'
      rw [h, huv]
    · exact absurd ⟨u, hf, hc⟩ hno
  · intro hno
    rcases login_cases E now s req with ⟨u, hf, hc, _⟩ | ⟨_, h | h | h⟩
    · exact absurd ⟨u, hf, hc⟩ hno
    · left; rw [h]
    · right; exact ⟨_, by rw [h]⟩
    · right; exact ⟨_, by rw [h]⟩
  · rcases register_cases E now s req with h | ⟨u, hh, n, _, _, _, _, h⟩
    · rw [h]; rfl
    · rw [h]; simp [Outcome.carries, ok, JVal.mentions, mentionsFields]
  · rcases register_cases E now s req with h | ⟨u, hh, n, _, _, _, _, h⟩
    · left; exact h
    · right; exact ⟨_, by rw [h], by rw [h]⟩

/-- C5 at concrete inputs: `alice` logs in with her secret and gets her token;
with a wrong secret she gets 401 and no token; a new identifier registers and
gets the message alone. -/
theorem token_only_from_login_witness :
    (login specEnv 100 sampleStore
      (anonymousReq [("username", JVal.str "alice"), ("password", JVal.str "pw1")])).out.body.get
        "token" = JVal.str aliceToken ∧
    (login specEnv 100 sampleStore
      (anonymousReq [("username", JVal.str "alice"), ("password", JVal.str "no")])).out.carries
        "token" = false ∧
    (register specEnv 100 sampleStore
      (anonymousReq [("username", JVal.str "carol"), ("password", JVal.str "pw4"),
        ("name", JVal.str "Carol")])).out.carries "token" = false := by
  refine ⟨?_, by rfl, ?_⟩
  · rw [(token_only_from_login specEnv 100 sampleStore
      (anonymousReq [("username", JVal.str "alice"), ("password", JVal.str "pw1")])).2.2.1
      alice (by rfl) (by rfl)]
    rfl
  · exact (token_only_from_login specEnv 100 sampleStore _).2.2.2.2.1

/-- C5 fails as stated: registration does not create an account for every
input. With the identifier `alice`, which is taken, or with no display name,
the handler throws: no account is added and no message is sent. -/
theorem register_may_fault :
    (register specEnv 100 sampleStore
      (anonymousReq [("username", JVal.str "alice"), ("password", JVal.str "pw9"),
        ("name", JVal.str "Alice Two")])).out.status = none ∧
    (register specEnv 100 sampleStore
      (anonymousReq [("username", JVal.str "alice"), ("password", JVal.str "pw9"),
        ("name", JVal.str "Alice Two")])).store = sampleStore ∧
    (register specEnv 100 sampleStore
      (anonymousReq [("username", JVal.str "dave"), ("password", JVal.str "pw9")])).out.status =
        none ∧
    (register specEnv 100 sampleStore
      (anonymousReq [("username", JVal.str "dave"), ("password", JVal.str "pw9")])).store =
        sampleStore := by
  refine ⟨by rfl, by rfl, by rfl, by rfl⟩

/-- C10. Registration reads only `username`, `password` and `name` of the
body: two requests that agree on these three properties have the same result,
so a `role` property changes nothing. Every account in the store after a
registration was there before or has the default role `user`, and the account
a successful registration adds is the identifier, the hash and the display
name with the role `user`. -/
theorem register_role_is_user (E : Env) (now : Nat) (s : Store) (req : Req) :
    (∀ req2 : Req, field req2.body "username" = field req.body "username" →
      field req2.body "password" = field req.body "password" →
      field req2.body "name" = field req.body "name" →
      register E now s req2 = register E now s req) ∧
    (∀ v, register E now s ⟨req.authorization, req.id, ("role", v) :: req.body⟩ =
      register E now s req) ∧
    (∀ x ∈ (register E now s req).store.users, x ∈ s.users ∨ x.role = Role.user) ∧
    (∀ u h n, field req.body "username" = JVal.str u → field req.body "name" = JVal.str n →
      E.bcryptHash (field req.body "password") = some h → (∀ x ∈ s.users, x.username ≠ u) →
      (register E now s req).store.users = s.users ++ [⟨s.userSeq, u, h, n, Role.user, now, now⟩]) := by
  refine ⟨?_, ?_, ?_, ?_⟩
  · intro req2 h1 h2 h3
    simp only [register, h1, h2, h3]
  · intro v
    have hf : ∀ k : String, k ≠ "role" →
        field (("role", v) :: req.body) k = field req.body k := by
      intro k hk
      have hb : (k == "role") = false := by simpa using hk
      simp [field, List.lookup, hb]
    simp only [register, hf "username" (by decide), hf "password" (by decide),
      hf "name" (by decide)]
  · intro x hx
    rcases register_cases E now s req with h | ⟨u, hh, n, _, _, _, _, h⟩
    · rw [h] at hx; exact Or.inl hx
    · rw [h] at hx
      simp only [List.mem_append, List.mem_singleton] at hx
      rcases hx with hx | hx
      · exact Or.inl hx
      · right; rw [hx]
  · intro u h n hu hn hh hfresh
    rw [register_success E now s req u h n hu hn hh hfresh]

/-- C10 at a concrete input: a registration whose body asks for the role
`admin` adds an account with the role `user`. -/
theorem register_role_is_user_witness :
    (register specEnv 100 sampleStore
      (anonymousReq [("username", JVal.str "mallory"), ("password", JVal.str "pw5"),
        ("name", JVal.str "Mallory"), ("role", JVal.str "admin")])).store.users =
      [alice, bob, root, ⟨4, "mallory", "$2b$10$pw5", "Mallory", Role.user, 100, 100⟩] := by
  rw [(register_role_is_user specEnv 100 sampleStore _).2.2.2 "mallory" "$2b$10$pw5" "Mallory"
    (by rfl) (by rfl) (by rfl) (by decide)]
  rfl

/-! ## C6: the stored hash in the login response -/

/-- C6 at the failing input: when `alice` logs in with her secret, the body
of the response holds her account record with its `password` property, whose
value is the stored hash. -/
theorem login_response_holds_password_hash :
    (login specEnv 100 sampleStore
      (anonymousReq [("username", JVal.str "alice"), ("password", JVal.str "pw1")])).out.carries
        "password" = true ∧
    ((login specEnv 100 sampleStore
      (anonymousReq [("username", JVal.str "alice"), ("password", JVal.str "pw1")])).out.body.get
        "user").get "password" = JVal.str alice.password := by
  refine ⟨by rfl, by rfl⟩

/-! ## C7: the owner of a row -/

theorem createPost_cases (E : Env) (now : Nat) (s : Store) (req : Req) (P : Principal) :
    createPostHandler E now s req P = ⟨s, Outcome.fault⟩ ∨
    ∃ t c, field req.body "title" = JVal.str t ∧ field req.body "content" = JVal.str c ∧
      createPostHandler E now s req P =
        ⟨{ s with posts := s.posts ++ [⟨s.postSeq, t, c, P.id, now, now⟩], postSeq := s.postSeq + 1 },
          ok (Post.toJson ⟨s.postSeq, t, c, P.id, now, now⟩)⟩ := by
  cases ht : field req.body "title" with
  | str t =>
    cases hc : field req.body "content" with
    | str c =>
      by_cases hfk : (E.checksForeignKeys && !(s.users.any (fun x => x.id == P.id))) = true
      · left; simp only [createPostHandler, Post.create, text, ht, hc, if_pos hfk]
      · right
        exact ⟨t, c, rfl, rfl,
          by simp only [createPostHandler, Post.create, text, ht, hc, if_neg hfk]⟩
    | _ => left; simp [createPostHandler, Post.create, text, ht, hc]
  | _ =>
    left
    cases hc : field req.body "content" <;> simp [createPostHandler, Post.create, text, ht, hc]

theorem createComment_cases (E : Env) (now : Nat) (s : Store) (req : Req) (P : Principal) :
    createCommentHandler E now s req P = ⟨s, Outcome.fault⟩ ∨
    ∃ c, field req.body "content" = JVal.str c ∧
      createCommentHandler E now s req P =
        ⟨{ s with comments := s.comments ++ [⟨s.commentSeq, c, P.id, req.id, now, now⟩],
                  commentSeq := s.commentSeq + 1 },
          ok (Comment.toJsonWith ⟨s.commentSeq, c, P.id, req.id, now, now⟩
            (JVal.str (decimal req.id)))⟩ := by
  cases hc : field req.body "content" with
  | str c =>
    by_cases hfk : (E.checksForeignKeys && !(s.users.any (fun x => x.id == P.id) &&
        s.posts.any (fun p => p.id == req.id))) = true
    · left; simp only [createCommentHandler, Comment.create, text, hc, if_pos hfk]
    · right
      exact ⟨c, rfl, by simp only [createCommentHandler, Comment.create, text, hc, if_neg hfk]⟩
  | _ => left; simp [createCommentHandler, Comment.create, text, hc]

theorem map_frame_setPost (l : List Post) (id now : Nat) (t c : String) :
    (l.map (fun x =>
      if x.id = id then { x with title := t, content := c, updatedAt := now } else x)).map
      Post.frame = l.map Post.frame := by
  rw [List.map_map]
  apply List.map_congr_left
  intro x _
  by_cases h : x.id = id <;> simp [h, Post.frame]

theorem map_frame_setComment (l : List Comment) (id now : Nat) (c : String) :
    (l.map (fun x => if x.id = id then { x with content := c, updatedAt := now } else x)).map
      Comment.frame = l.map Comment.frame := by
  rw [List.map_map]
  apply List.map_congr_left
  intro x _
  by_cases h : x.id = id <;> simp [h, Comment.frame]

theorem find_some_key {α : Type} {l : List α} {key : α → Nat} {id : Nat} {x : α}
    (h : l.find? (fun y => key y == id) = some x) : key x = id := by
  have := List.find?_some h
  simpa using this

theorem postSave_frame (s : Store) (now : Nat) (post : Post) (title content : JVal)
    (s2 : Store) (post2 : Post) (h : Post.save s now post title content = Except.ok (s2, post2)) :
    s2.posts.map Post.frame = s.posts.map Post.frame ∧ s2.comments = s.comments ∧
    s2.users = s.users ∧ ∀ x ∈ s2.posts, x.id ≠ post.id → x ∈ s.posts := by
  cases ht : text title with
  | error e => simp [Post.save, ht] at h
  | ok t =>
    cases hc : text content with
    | error e => simp [Post.save, ht, hc] at h
    | ok c =>
      by_cases hsame : t = post.title ∧ c = post.content
      · simp only [Post.save, ht, hc, if_pos hsame, Except.ok.injEq, Prod.mk.injEq] at h
        rw [← h.1]
        exact ⟨rfl, rfl, rfl, fun x hx _ => hx⟩
      · simp only [Post.save, ht, hc, if_neg hsame, Except.ok.injEq, Prod.mk.injEq] at h
        rw [← h.1]
        refine ⟨map_frame_setPost _ _ _ _ _, rfl, rfl, ?_⟩
        intro x hx hne
        simp only [List.mem_map] at hx
        obtain ⟨y, hy, hxy⟩ := hx
        by_cases hid : y.id = post.id
        · rw [if_pos hid] at hxy
          rw [← hxy] at hne
          exact absurd hid hne
        · rw [if_neg hid] at hxy
          rw [← hxy]; exact hy

theorem commentSave_frame (s : Store) (now : Nat) (comment : Comment) (content : JVal)
    (s2 : Store) (comment2 : Comment)
    (h : Comment.save s now comment content = Except.ok (s2, comment2)) :
    s2.comments.map Comment.frame = s.comments.map Comment.frame ∧ s2.posts = s.posts ∧
    s2.users = s.users ∧ ∀ x ∈ s2.comments, x.id ≠ comment.id → x ∈ s.comments := by
  cases hc : text content with
  | error e => simp [Comment.save, hc] at h
  | ok c =>
    by_cases hsame : c = comment.content
    · simp only [Comment.save, hc, if_pos hsame, Except.ok.injEq, Prod.mk.injEq] at h
      rw [← h.1]
      exact ⟨rfl, rfl, rfl, fun x hx _ => hx⟩
    · simp only [Comment.save, hc, if_neg hsame, Except.ok.injEq, Prod.mk.injEq] at h
      rw [← h.1]
      refine ⟨map_frame_setComment _ _ _ _, rfl, rfl, ?_⟩
      intro x hx hne
      simp only [List.mem_map] at hx
      obtain ⟨y, hy, hxy⟩ := hx
      by_cases hid : y.id = comment.id
      · rw [if_pos hid] at hxy
        rw [← hxy] at hne
        exact absurd hid hne
      · rw [if_neg hid] at hxy
        rw [← hxy]; exact hy

theorem updatePostHandler_frame (now : Nat) (s : Store) (req : Req) (P : Principal) :
    (updatePostHandler now s req P).store.posts.map Post.frame = s.posts.map Post.frame ∧
    (updatePostHandler now s req P).store.comments = s.comments ∧
    (updatePostHandler now s req P).store.users = s.users ∧
    ∀ x ∈ (updatePostHandler now s req P).store.posts, x.id ≠ req.id → x ∈ s.posts := by
  unfold updatePostHandler
  cases hf : Post.findByPk s req.id with
  | none => exact ⟨rfl, rfl, rfl, fun x hx _ => hx⟩
  | some post =>
    have hid : post.id = req.id := find_some_key hf
    by_cases hg : P.role ≠ Role.admin ∧ post.userId ≠ P.id
    · dsimp only
      rw [if_pos hg]
      exact ⟨rfl, rfl, rfl, fun x hx _ => hx⟩
    · dsimp only
      rw [if_neg hg]
      cases hs : Post.save s now post (field req.body "title") (field req.body "content") with
      | error e => exact ⟨rfl, rfl, rfl, fun x hx _ => hx⟩
      | ok r =>
        obtain ⟨s2, post2⟩ := r
        have h := postSave_frame s now post _ _ s2 post2 hs
        rw [hid] at h
        exact h

theorem updateCommentHandler_frame (now : Nat) (s : Store) (req : Req) (P : Principal) :
    (updateCommentHandler now s req P).store.comments.map Comment.frame =
      s.comments.map Comment.frame ∧
    (updateCommentHandler now s req P).store.posts = s.posts ∧
    (updateCommentHandler now s req P).store.users = s.users ∧
    ∀ x ∈ (updateCommentHandler now s req P).store.comments, x.id ≠ req.id →
      x ∈ s.comments := by
  unfold updateCommentHandler
  cases hf : Comment.findByPk s req.id with
  | none => exact ⟨rfl, rfl, rfl, fun x hx _ => hx⟩
  | some comment =>
    have hid : comment.id = req.id := find_some_key hf
    by_cases hg : P.role ≠ Role.admin ∧ comment.userId ≠ P.id
    · dsimp only
      rw [if_pos hg]
      exact ⟨rfl, rfl, rfl, fun x hx _ => hx⟩
    · dsimp only
      rw [if_neg hg]
      cases hs : Comment.save s now comment (field req.body "content") with
      | error e => exact ⟨rfl, rfl, rfl, fun x hx _ => hx⟩
      | ok r =>
        obtain ⟨s2, comment2⟩ := r
        have h := commentSave_frame s now comment _ s2 comment2 hs
        rw [hid] at h
        exact h

theorem field_cons_ne (k key : String) (v : JVal) (body : List (String × JVal))
    (h : k ≠ key) : field ((key, v) :: body) k = field body k := by
  have hb : (k == key) = false := by simpa using h
  simp [field, List.lookup, hb]

/-- C7, as the code has it. Creation: for every request that passed the gate
as `P`, whatever its body holds, `POST /api/posts` either leaves the store
unchanged or appends exactly one post whose `userId` is `P.id`, and
`POST /api/posts/:id/comments` either leaves the store unchanged or appends
exactly one comment whose `userId` is `P.id` and whose `postId` is the route
parameter; a `userId` property in the body changes nothing; and a body with
string fields is stored and sent back as the new row when the database does
not refuse the foreign keys. Update: for every request,
whether it is let through, refused or throws, `PUT /api/posts/:id` leaves the
id, owner and creation time of every post as they were, leaves every post
with another id, every comment and every account untouched, and so changes
at most the title, the content and the `updatedAt` of the requested post;
`PUT /api/comments/:id` leaves the id, owner, post reference and creation
time of every comment as they were, leaves every comment with another id,
every post and every account untouched, and so changes at most the content
and the `updatedAt` of the requested comment. -/
theorem owner_is_creator_and_fixed (E : Env) (now : Nat) (s : Store) (req : Req) :
    (∀ P, auth E now req = Gate.next P →
      ((createPost E now s req).store = s ∨
        ∃ t c, (createPost E now s req).store =
          { s with posts := s.posts ++ [⟨s.postSeq, t, c, P.id, now, now⟩],
                   postSeq := s.postSeq + 1 }) ∧
      ((createComment E now s req).store = s ∨
        ∃ c, (createComment E now s req).store =
          { s with comments := s.comments ++ [⟨s.commentSeq, c, P.id, req.id, now, now⟩],
                   commentSeq := s.commentSeq + 1 }) ∧
      (∀ t c, field req.body "title" = JVal.str t → field req.body "content" = JVal.str c →
        (E.checksForeignKeys = true → ∃ u ∈ s.users, u.id = P.id) →
        createPost E now s req =
          ⟨{ s with posts := s.posts ++ [⟨s.postSeq, t, c, P.id, now, now⟩],
                    postSeq := s.postSeq + 1 },
            ok (Post.toJson ⟨s.postSeq, t, c, P.id, now, now⟩)⟩) ∧
      (∀ c, field req.body "content" = JVal.str c →
        (E.checksForeignKeys = true →
          (∃ u ∈ s.users, u.id = P.id) ∧ ∃ p ∈ s.posts, p.id = req.id) →
        createComment E now s req =
          ⟨{ s with comments := s.comments ++ [⟨s.commentSeq, c, P.id, req.id, now, now⟩],
                    commentSeq := s.commentSeq + 1 },
            ok (Comment.toJsonWith ⟨s.commentSeq, c, P.id, req.id, now, now⟩
              (JVal.str (decimal req.id)))⟩)) ∧
    (∀ v, createPost E now s ⟨req.authorization, req.id, ("userId", v) :: req.body⟩ =
        createPost E now s req ∧
      createComment E now s ⟨req.authorization, req.id, ("userId", v) :: req.body⟩ =
        createComment E now s req) ∧
    ((updatePost E now s req).store.posts.map Post.frame = s.posts.map Post.frame ∧
      (updatePost E now s req).store.comments = s.comments ∧
      (updatePost E now s req).store.users = s.users ∧
      ∀ x ∈ (updatePost E now s req).store.posts, x.id ≠ req.id → x ∈ s.posts) ∧
    ((updateComment E now s req).store.comments.map Comment.frame =
        s.comments.map Comment.frame ∧
      (updateComment E now s req).store.posts = s.posts ∧
      (updateComment E now s req).store.users = s.users ∧
      ∀ x ∈ (updateComment E now s req).store.comments, x.id ≠ req.id → x ∈ s.comments) := by
  refine ⟨?_, ?_, ?_, ?_⟩
  · intro P hgate
    simp only [createPost, createComment, guarded_next _ hgate]
    refine ⟨?_, ?_, ?_, ?_⟩
    · rcases createPost_cases E now s req P with h | ⟨t, c, _, _, h⟩
      · exact Or.inl (by rw [h])
      · exact Or.inr ⟨t, c, by rw [h]⟩
    · rcases createComment_cases E now s req P with h | ⟨c, _, h⟩
      · exact Or.inl (by rw [h])
      · exact Or.inr ⟨c, by rw [h]⟩
    · intro t c ht hc hfk
      have hno : ¬ ((E.checksForeignKeys && !(s.users.any (fun x => x.id == P.id))) = true) := by
        intro h
        simp only [Bool.and_eq_true, Bool.not_eq_true', List.any_eq_false] at h
        obtain ⟨u, hu, hid⟩ := hfk h.1
        exact h.2 u hu (by simpa using hid)
      simp only [createPostHandler, Post.create, text, ht, hc, if_neg hno]
    · intro c hc hfk
      have hno : ¬ ((E.checksForeignKeys && !(s.users.any (fun x => x.id == P.id) &&
          s.posts.any (fun p => p.id == req.id))) = true) := by
        intro h
        simp only [Bool.and_eq_true, Bool.not_eq_true', Bool.and_eq_false_iff,
          List.any_eq_false] at h
        obtain ⟨⟨u, hu, hid⟩, ⟨p, hp, hpid⟩⟩ := hfk h.1
        rcases h.2 with h2 | h2
        · exact h2 u hu (by simpa using hid)
        · exact h2 p hp (by simpa using hpid)
      simp only [createCommentHandler, Comment.create, text, hc, if_neg hno]
  · intro v
    have ha : ∀ body : List (String × JVal),
        auth E now ⟨req.authorization, req.id, body⟩ = auth E now req := fun _ => rfl
    constructor
    · simp only [createPost, guarded, ha, createPostHandler,
        field_cons_ne "title" "userId" v req.body (by decide),
        field_cons_ne "content" "userId" v req.body (by decide)]
    · simp only [createComment, guarded, ha, createCommentHandler,
        field_cons_ne "content" "userId" v req.body (by decide)]
  · unfold updatePost guarded
    cases auth E now req with
    | reject r => exact ⟨rfl, rfl, rfl, fun x hx _ => hx⟩
    | next P => exact updatePostHandler_frame now s req P
  · unfold updateComment guarded
    cases auth E now req with
    | reject r => exact ⟨rfl, rfl, rfl, fun x hx _ => hx⟩
    | next P => exact updateCommentHandler_frame now s req P

/-- C7 at concrete inputs: `bob` creates a post with a body that names
`alice` as `userId`, and the stored owner is `bob`; the administrator `root`
rewrites the post of `alice`, and its owner is still `alice`. -/
theorem owner_is_creator_and_fixed_witness :
    (createPost specEnv 200 sampleStore
      (sampleReq bobToken 0 [("userId", JVal.num 1), ("title", JVal.str "t"),
        ("content", JVal.str "c")])).store.posts =
      [⟨1, "hello", "first post", 1, 20, 20⟩, ⟨2, "t", "c", 2, 200, 200⟩] ∧
    (updatePost specEnv 200 sampleStore
      (sampleReq rootToken 1 [("userId", JVal.num 3), ("title", JVal.str "t"),
        ("content", JVal.str "c")])).store.posts = [⟨1, "t", "c", 1, 20, 200⟩] ∧
    (updatePost specEnv 200 sampleStore
      (sampleReq rootToken 1 [("userId", JVal.num 3), ("title", JVal.str "t"),
        ("content", JVal.str "c")])).store.posts.map Post.frame =
      sampleStore.posts.map Post.frame := by
  refine ⟨?_, by rfl, ?_⟩
  · rw [((owner_is_creator_and_fixed specEnv 200 sampleStore
      (sampleReq bobToken 0 [("userId", JVal.num 1), ("title", JVal.str "t"),
        ("content", JVal.str "c")])).1 ⟨2, Role.user⟩ (by rfl)).2.2.1 "t" "c" (by rfl) (by rfl)
      (fun _ => ⟨bob, by decide, by rfl⟩)]
    rfl
  · exact (owner_is_creator_and_fixed specEnv 200 sampleStore _).2.2.1.1

/-- C7 fails as stated in its last sentence: an update writes a third column.
When `alice` rewrites the content of her post at time 200, the `updatedAt` of
the row goes from 20 to 200, and when `bob` rewrites his comment, the
`updatedAt` of the comment goes from 30 to 200. -/
theorem update_rewrites_updatedAt :
    sampleStore.posts = [⟨1, "hello", "first post", 1, 20, 20⟩] ∧
    (updatePost specEnv 200 sampleStore
      (sampleReq aliceToken 1 [("title", JVal.str "hello"),
        ("content", JVal.str "edited")])).store.posts =
      [⟨1, "hello", "edited", 1, 20, 200⟩] ∧
    sampleStore.comments = [⟨1, "nice", 2, 1, 30, 30⟩] ∧
    (updateComment specEnv 200 sampleStore
      (sampleReq bobToken 1 [("content", JVal.str "edited")])).store.comments =
      [⟨1, "edited", 2, 1, 30, 200⟩] := by
  refine ⟨by rfl, by rfl, by rfl, by rfl⟩

/-! ## C9: the decision does not read the accounts -/

theorem find_congr {α : Type} {l1 l2 : List α} (f : α → Bool) (h : l1 = l2) :
    l1.find? f = l2.find? f := by
  rw [h]

theorem handlers_ignore_accounts (now : Nat) (req : Req) (P : Principal) (s1 s2 : Store)
    (hp : s1.posts = s2.posts) (hc : s1.comments = s2.comments) :
    ((updatePostHandler now s1 req P).out = (updatePostHandler now s2 req P).out ∧
      (updatePostHandler now s1 req P).store.posts = (updatePostHandler now s2 req P).store.posts ∧
      (updatePostHandler now s1 req P).store.comments =
        (updatePostHandler now s2 req P).store.comments) ∧
    ((deletePostHandler s1 req P).out = (deletePostHandler s2 req P).out ∧
      (deletePostHandler s1 req P).store.posts = (deletePostHandler s2 req P).store.posts ∧
      (deletePostHandler s1 req P).store.comments =
        (deletePostHandler s2 req P).store.comments) ∧
    ((updateCommentHandler now s1 req P).out = (updateCommentHandler now s2 req P).out ∧
      (updateCommentHandler now s1 req P).store.posts =
        (updateCommentHandler now s2 req P).store.posts ∧
      (updateCommentHandler now s1 req P).store.comments =
        (updateCommentHandler now s2 req P).store.comments) ∧
    ((deleteCommentHandler s1 req P).out = (deleteCommentHandler s2 req P).out ∧
      (deleteCommentHandler s1 req P).store.posts =
        (deleteCommentHandler s2 req P).store.posts ∧
      (deleteCommentHandler s1 req P).store.comments =
        (deleteCommentHandler s2 req P).store.comments) := by
  have hfp : Post.findByPk s1 req.id = Post.findByPk s2 req.id := find_congr _ hp
  have hfc : Comment.findByPk s1 req.id = Comment.findByPk s2 req.id := find_congr _ hc
  refine ⟨?_, ?_, ?_, ?_⟩
  · unfold updatePostHandler
    rw [hfp]
    cases Post.findByPk s2 req.id with
    | none => simp [hp, hc]
    | some post =>
      by_cases hg : P.role ≠ Role.admin ∧ post.userId ≠ P.id
      · simp only [if_pos hg]; simp [hp, hc]
      · simp only [if_neg hg]
        cases field req.body "title" <;> cases field req.body "content" <;>
          simp only [Post.save, text, hp, hc, and_self]
        split_ifs <;> simp [hp, hc]
  · unfold deletePostHandler
    rw [hfp]
    cases Post.findByPk s2 req.id with
    | none => simp [hp, hc]
    | some post =>
      by_cases hg : P.role ≠ Role.admin ∧ post.userId ≠ P.id
      · simp only [if_pos hg]; simp [hp, hc]
      · simp only [if_neg hg]; simp [Post.destroy, hp, hc]
  · unfold updateCommentHandler
    rw [hfc]
    cases Comment.findByPk s2 req.id with
    | none => simp [hp, hc]
    | some comment =>
      by_cases hg : P.role ≠ Role.admin ∧ comment.userId ≠ P.id
      · simp only [if_pos hg]; simp [hp, hc]
      · simp only [if_neg hg]
        cases field req.body "content" <;>
          simp only [Comment.save, text, hp, hc, and_self]
        split_ifs <;> simp [hp, hc]
  · unfold deleteCommentHandler
    rw [hfc]
    cases Comment.findByPk s2 req.id with
    | none => simp [hp, hc]
    | some comment =>
      by_cases hg : P.role ≠ Role.admin ∧ comment.userId ≠ P.id
      · simp only [if_pos hg]; simp [hp, hc]
      · simp only [if_neg hg]; simp [Comment.destroy, hp, hc]

/-- C9. The gate is a function of the request, the clock and the libraries
and takes no store. For every request and any two stores with the same posts
and comments, whatever their accounts tables hold (the role of the account of
the token changed, or the account gone), each of the four update and delete
routes sends the same response from both and leaves the same posts and
comments in both. -/
theorem decision_ignores_accounts (E : Env) (now : Nat) (req : Req) (s1 s2 : Store)
    (hp : s1.posts = s2.posts) (hc : s1.comments = s2.comments) :
    ((updatePost E now s1 req).out = (updatePost E now s2 req).out ∧
      (updatePost E now s1 req).store.posts = (updatePost E now s2 req).store.posts ∧
      (updatePost E now s1 req).store.comments = (updatePost E now s2 req).store.comments) ∧
    ((deletePost E now s1 req).out = (deletePost E now s2 req).out ∧
      (deletePost E now s1 req).store.posts = (deletePost E now s2 req).store.posts ∧
      (deletePost E now s1 req).store.comments = (deletePost E now s2 req).store.comments) ∧
    ((updateComment E now s1 req).out = (updateComment E now s2 req).out ∧
      (updateComment E now s1 req).store.posts = (updateComment E now s2 req).store.posts ∧
      (updateComment E now s1 req).store.comments =
        (updateComment E now s2 req).store.comments) ∧
    ((deleteComment E now s1 req).out = (deleteComment E now s2 req).out ∧
      (deleteComment E now s1 req).store.posts = (deleteComment E now s2 req).store.posts ∧
      (deleteComment E now s1 req).store.comments =
        (deleteComment E now s2 req).store.comments) := by
  unfold updatePost deletePost updateComment deleteComment guarded
  cases auth E now req with
  | reject r => simp [hp, hc]
  | next P => exact handlers_ignore_accounts now req P s1 s2 hp hc

/-- C9 at a concrete input: `alice` holds a token issued while her role was
`user`. After her stored role is raised to administrator and the account of
`bob` is gone, her request to delete the comment of `bob` is refused with 403
exactly as before. -/
theorem decision_ignores_accounts_witness :
    (deleteComment specEnv 200 sampleStore (sampleReq aliceToken 1 [])).out =
      (deleteComment specEnv 200 sampleStoreChanged (sampleReq aliceToken 1 [])).out ∧
    (deleteComment specEnv 200 sampleStoreChanged (sampleReq aliceToken 1 [])).out.status =
      some 403 := by
  refine ⟨?_, by rfl⟩
  exact (decision_ignores_accounts specEnv 200 (sampleReq aliceToken 1 []) sampleStore
    sampleStoreChanged (by rfl) (by rfl)).2.2.2.1

/-! ## C8: the token of a login at the gate -/

theorem digitVal_digitChar (d : Nat) (h : d < 10) : digitVal (digitChar d) = some d := by
  interval_cases d <;> rfl

theorem digitChar_ne_space (d : Nat) (h : d < 10) : digitChar d ≠ Char.ofNat 32 := by
  interval_cases d <;> decide

theorem decodeNat_encodeNatAux (rest : List Char) (hrest : decodeNat rest = none) :
    ∀ (fuel n : Nat), n < fuel → decodeNat (encodeNatAux fuel n ++ rest) = some (n, rest) := by
  intro fuel
  induction fuel with
  | zero => intro n h; omega
  | succ f ih =>
    intro n hn
    have hd : digitVal (digitChar (n % 10)) = some (n % 10) :=
      digitVal_digitChar _ (Nat.mod_lt _ (by decide))
    by_cases h10 : n < 10
    · have hm : n % 10 = n := Nat.mod_eq_of_lt h10
      have he : encodeNatAux (f + 1) n ++ rest = digitChar (n % 10) :: rest := by
        simp [encodeNatAux, h10]
      rw [hm] at hd he
      rw [he, decodeNat]
      simp only [hd, hrest]
    · have hlt : n / 10 < f := by omega
      have he : encodeNatAux (f + 1) n ++ rest =
          digitChar (n % 10) :: (encodeNatAux f (n / 10) ++ rest) := by
        simp [encodeNatAux, h10]
      have hsum : n % 10 + 10 * (n / 10) = n := Nat.mod_add_div n 10
      rw [he, decodeNat]
      simp only [hd, ih (n / 10) hlt, hsum]

theorem decodeNat_encodeNat (n : Nat) (rest : List Char) :
    decodeNat (encodeNat n ++ '.' :: rest) = some (n, '.' :: rest) :=
  decodeNat_encodeNatAux ('.' :: rest) (by rfl) (n + 1) n (Nat.lt_succ_self n)

theorem space_not_mem_encodeNatAux :
    ∀ (fuel n : Nat), Char.ofNat 32 ∉ encodeNatAux fuel n := by
  intro fuel
  induction fuel with
  | zero => intro n; simp [encodeNatAux]
  | succ f ih =>
    intro n
    have hd : digitChar (n % 10) ≠ Char.ofNat 32 :=
      digitChar_ne_space _ (Nat.mod_lt _ (by decide))
    by_cases h10 : n < 10
    · simp only [encodeNatAux, if_pos h10, List.mem_singleton]
      exact fun e => hd e.symm
    · simp only [encodeNatAux, if_neg h10, List.mem_cons, not_or]
      exact ⟨fun e => hd e.symm, ih (n / 10)⟩

theorem charRole_roleChar (r : Role) : charRole (roleChar r) = some r := by
  cases r <;> rfl

theorem roleChar_ne_space (r : Role) : roleChar r ≠ Char.ofNat 32 := by
  cases r <;> decide

theorem jwtDecode_sign (payload : Principal) (secret : String) (lifetime now : Nat) :
    jwtDecode (jwtSign payload secret lifetime now).toList =
      some (payload, now, now + lifetime, secret.toList) := by
  simp only [jwtSign, String.toList, jwtDecode, decodeNat_encodeNat, charRole_roleChar]

theorem jwtVerify_sign (payload : Principal) (secret : String) (lifetime now t : Nat) :
    jwtVerify (jwtSign payload secret lifetime now) secret t =
      if t < now + lifetime then some payload else none := by
  simp only [jwtVerify, jwtDecode_sign, true_and]

theorem space_not_mem_sign (payload : Principal) (lifetime now : Nat) :
    Char.ofNat 32 ∉ (jwtSign payload SECRET lifetime now).toList := by
  have h1 := space_not_mem_encodeNatAux (payload.id + 1) payload.id
  have h2 := space_not_mem_encodeNatAux (now + 1) now
  have h3 := space_not_mem_encodeNatAux (now + lifetime + 1) (now + lifetime)
  have h4 : Char.ofNat 32 ∉ SECRET.toList := by decide
  have h5 : roleChar payload.role ≠ Char.ofNat 32 := roleChar_ne_space _
  have h6 : Char.ofNat 32 ≠ '.' := by decide
  simp only [jwtSign, String.toList, encodeNat, List.mem_append, List.mem_cons, not_or]
  exact ⟨h1, h6, fun e => h5 e.symm, h6, h2, h6, h3, h6, h4⟩

theorem sign_ne_empty (payload : Principal) (secret : String) (lifetime now : Nat) :
    jwtSign payload secret lifetime now ≠ "" := by
  intro h
  have hl := congrArg String.toList h
  simp [jwtSign, String.toList] at hl

/-- C8. With `jwt.sign` and `jwt.verify` as the specification describes them:
when `findOne` gives the account `u` for the submitted identifier and
`bcrypt.compare` accepts the submitted secret, the login at time `t0` answers
with the token signed for the id and the stored role of `u`, and on every
request that carries this token as `Bearer <token>`, the gate at a time `t`
before `t0 + 7d` hands over the principal with exactly the id and the role of
`u`, and at any time `t` from `t0 + 7d` on answers 403. -/
theorem issued_token_resolves (E : Env) (hsign : E.jwtSign = jwtSign)
    (hverify : E.jwtVerify = jwtVerify) (t0 t : Nat) (s : Store) (req : Req) (u : User)
    (hfind : User.findOne s (field req.body "username") = Except.ok (some u))
    (hpw : E.bcryptCompare (field req.body "password") u.password = some true) :
    (login E t0 s req).out =
      ok (JVal.obj [("token", JVal.str (E.jwtSign ⟨u.id, u.role⟩ SECRET sevenDays t0)),
        ("user", u.toJson)]) ∧
    ∀ (id : Nat) (body : List (String × JVal)),
      (t < t0 + sevenDays →
        auth E t ⟨some ("Bearer " ++ E.jwtSign ⟨u.id, u.role⟩ SECRET sevenDays t0), id, body⟩ =
          Gate.next ⟨u.id, u.role⟩) ∧
      (t0 + sevenDays ≤ t →
        auth E t ⟨some ("Bearer " ++ E.jwtSign ⟨u.id, u.role⟩ SECRET sevenDays t0), id, body⟩ =
          Gate.reject (errorResponse 403 "토큰이 유효하지 않습니다.")) := by
  refine ⟨?_, ?_⟩
  · simp [login, hfind, hpw]
  · intro id body
    have hb : ("Bearer " : String) = "Bearer" ++ " " := by decide
    have hscheme : Char.ofNat 32 ∉ ("Bearer" : String).toList := by decide
    have hv := jwtVerify_sign ⟨u.id, u.role⟩ SECRET sevenDays t0 t
    rw [← hverify] at hv
    have h := auth_ignores_scheme E t id body "Bearer"
      (jwtSign ⟨u.id, u.role⟩ SECRET sevenDays t0) hscheme
      (space_not_mem_sign _ _ _) (sign_ne_empty _ _ _ _)
    rw [hb, hsign]
    constructor
    · intro hlt
      rw [if_pos hlt] at hv
      exact h.1 _ hv
    · intro hge
      rw [if_neg (by omega)] at hv
      exact h.2.1 hv

/-- C8 at a concrete input: `alice` logs in at time 100; her token passes the
gate as `alice` with the role `user` one second before its expiry and is
refused at the expiry instant. -/
theorem issued_token_resolves_witness :
    User.findOne sampleStore (JVal.str "alice") = Except.ok (some alice) ∧
    (login specEnv 100 sampleStore
      (anonymousReq [("username", JVal.str "alice"), ("password", JVal.str "pw1")])).out.body.get
        "token" = JVal.str aliceToken ∧
    auth specEnv 604899 (sampleReq aliceToken 1 []) = Gate.next ⟨1, Role.user⟩ ∧
    auth specEnv 604900 (sampleReq aliceToken 1 []) =
      Gate.reject (errorResponse 403 "토큰이 유효하지 않습니다.") := by
  have h1 := issued_token_resolves specEnv rfl rfl 100 604899 sampleStore
    (anonymousReq [("username", JVal.str "alice"), ("password", JVal.str "pw1")]) alice
    (by rfl) (by rfl)
  have h2 := issued_token_resolves specEnv rfl rfl 100 604900 sampleStore
    (anonymousReq [("username", JVal.str "alice"), ("password", JVal.str "pw1")]) alice
    (by rfl) (by rfl)
  refine ⟨by rfl, ?_, ?_, ?_⟩
  · rw [h1.1]; rfl
  · exact (h1.2 1 []).1 (by decide)
  · exact (h2.2 1 []).2 (by decide)

/-! ## Further properties: what the other responses hold, and the cascades -/

theorem mentionsList_map {α : Type} (k : String) (f : α → JVal) (l : List α)
    (h : ∀ x ∈ l, (f x).mentions k = false) : mentionsList k (l.map f) = false := by
  induction l with
  | nil => simp [mentionsList]
  | cons a as ih =>
    simp only [List.map_cons, mentionsList, Bool.or_eq_false_iff]
    exact ⟨h a (by simp), ih (fun x hx => h x (by simp [hx]))⟩

theorem includeUser_no_password (s : Store) (id : Nat) :
    (includeUser s id).mentions "password" = false := by
  unfold includeUser
  cases User.findByPk s id <;> simp [JVal.mentions, mentionsFields]

theorem includePost_no_password (s : Store) (id : Nat) :
    (includePost s id).mentions "password" = false := by
  unfold includePost
  cases Post.findByPk s id <;> simp [JVal.mentions, mentionsFields]

theorem guarded_no_password (E : Env) (now : Nat) (s : Store) (req : Req)
    (handler : Principal → Result)
    (h : ∀ P, (handler P).out.carries "password" = false) :
    (guarded E now s req handler).out.carries "password" = false := by
  unfold guarded auth
  cases bearerToken req.authorization with
  | none => simp [Outcome.carries, errorResponse, JVal.mentions, mentionsFields]
  | some token =>
    by_cases ht : token = ""
    · simp [ht, Outcome.carries, errorResponse, JVal.mentions, mentionsFields]
    · cases hv : E.jwtVerify token SECRET now with
      | none => simp [ht, hv, Outcome.carries, errorResponse, JVal.mentions, mentionsFields]
      | some P => simpa [ht, hv] using h P

/-- The login response is the only one that can hold a `password` property:
for every request, store and environment, the body of the response of every
other route (register, profile read and delete, post and comment creation,
update, deletion and the five listings) has no property named `password` at
any depth. -/
theorem only_login_holds_password (E : Env) (now : Nat) (s : Store) (req : Req) :
    (register E now s req).out.carries "password" = false ∧
    (getProfile E now s req).out.carries "password" = false ∧
    (deleteProfile E now s req).out.carries "password" = false ∧
    (createPost E now s req).out.carries "password" = false ∧
    (createComment E now s req).out.carries "password" = false ∧
    (listComments s req).out.carries "password" = false ∧
    (deleteComment E now s req).out.carries "password" = false ∧
    (updateComment E now s req).out.carries "password" = false ∧
    (listPosts s).out.carries "password" = false ∧
    (listMyPosts E now s req).out.carries "password" = false ∧
    (getPost s req).out.carries "password" = false ∧
    (listMyComments E now s req).out.carries "password" = false ∧
    (updatePost E now s req).out.carries "password" = false ∧
    (deletePost E now s req).out.carries "password" = false := by
  refine ⟨?_, ?_, ?_, ?_, ?_, ?_, ?_, ?_, ?_, ?_, ?_, ?_, ?_, ?_⟩
  · rcases register_cases E now s req with h | ⟨u, hh, n, _, _, _, _, h⟩
    · rw [h]; rfl
    · rw [h]; simp [Outcome.carries, ok, JVal.mentions, mentionsFields]
  · apply guarded_no_password
    intro P
    unfold getProfileHandler
    cases User.findByPk s P.id <;>
      simp [Outcome.carries, ok, User.profileJson, JVal.mentions, mentionsFields]
  · apply guarded_no_password
    intro P
    simp [deleteProfileHandler, Outcome.carries, ok, JVal.mentions, mentionsFields]
  · apply guarded_no_password
    intro P
    rcases createPost_cases E now s req P with h | ⟨t, c, _, _, h⟩
    · rw [h]; rfl
    · rw [h]; simp [Outcome.carries, ok, Post.toJson, JVal.mentions, mentionsFields]
  · apply guarded_no_password
    intro P
    rcases createComment_cases E now s req P with h | ⟨c, _, h⟩
    · rw [h]; rfl
    · rw [h]; simp [Outcome.carries, ok, Comment.toJsonWith, JVal.mentions, mentionsFields]
  · simp only [listComments, Outcome.carries, ok, JVal.mentions]
    apply mentionsList_map
    intro c _
    simp [JVal.mentions, mentionsFields, includeUser_no_password]
  · apply guarded_no_password
    intro P
    unfold deleteCommentHandler
    cases Comment.findByPk s req.id with
    | none => simp [Outcome.carries, errorResponse, JVal.mentions, mentionsFields]
    | some c =>
      by_cases hg : P.role ≠ Role.admin ∧ c.userId ≠ P.id
      · simp only [if_pos hg]
        simp [Outcome.carries, errorResponse, JVal.mentions, mentionsFields]
      · simp only [if_neg hg]
        simp [Outcome.carries, ok, JVal.mentions, mentionsFields]
  · apply guarded_no_password
    intro P
    unfold updateCommentHandler
    cases Comment.findByPk s req.id with
    | none => simp [Outcome.carries, errorResponse, JVal.mentions, mentionsFields]
    | some c =>
      by_cases hg : P.role ≠ Role.admin ∧ c.userId ≠ P.id
      · simp only [if_pos hg]
        simp [Outcome.carries, errorResponse, JVal.mentions, mentionsFields]
      · simp only [if_neg hg]
        cases field req.body "content" <;>
          simp only [Comment.save, text] <;>
          (try split_ifs) <;>
          simp [Outcome.carries, ok, Comment.toJson, Comment.toJsonWith, JVal.mentions,
            mentionsFields]
  · simp only [listPosts, Outcome.carries, ok, JVal.mentions]
    apply mentionsList_map
    intro p _
    simp [JVal.mentions, mentionsFields, includeUser_no_password]
  · apply guarded_no_password
    intro P
    simp only [listMyPostsHandler, Outcome.carries, ok, JVal.mentions]
    apply mentionsList_map
    intro p _
    simp [JVal.mentions, mentionsFields]
  · unfold getPost
    cases Post.findByPk s req.id with
    | none => simp [Outcome.carries, errorResponse, JVal.mentions, mentionsFields]
    | some p =>
      simp [Outcome.carries, ok, JVal.mentions, mentionsFields, includeUser_no_password]
  · apply guarded_no_password
    intro P
    simp only [listMyCommentsHandler, Outcome.carries, ok, JVal.mentions]
    apply mentionsList_map
    intro c _
    simp [JVal.mentions, mentionsFields, includeUser_no_password, includePost_no_password]
  · apply guarded_no_password
    intro P
    unfold updatePostHandler
    cases Post.findByPk s req.id with
    | none => simp [Outcome.carries, errorResponse, JVal.mentions, mentionsFields]
    | some p =>
      by_cases hg : P.role ≠ Role.admin ∧ p.userId ≠ P.id
      · simp only [if_pos hg]
        simp [Outcome.carries, errorResponse, JVal.mentions, mentionsFields]
      · simp only [if_neg hg]
        cases field req.body "title" <;> cases field req.body "content" <;>
          simp only [Post.save, text] <;>
          (try split_ifs) <;>
          simp [Outcome.carries, ok, Post.toJson, JVal.mentions, mentionsFields]
  · apply guarded_no_password
    intro P
    unfold deletePostHandler
    cases Post.findByPk s req.id with
    | none => simp [Outcome.carries, errorResponse, JVal.mentions, mentionsFields]
    | some p =>
      by_cases hg : P.role ≠ Role.admin ∧ p.userId ≠ P.id
      · simp only [if_pos hg]
        simp [Outcome.carries, errorResponse, JVal.mentions, mentionsFields]
      · simp only [if_neg hg]
        simp [Outcome.carries, ok, JVal.mentions, mentionsFields]

/-- Deleting a post cascades to its comments (lines 71, 256-266): after a
delete of an existing post that the policy allows, no post has the requested
id, no comment refers to it, and the public comment listing of that post is the
empty array. -/
theorem delete_post_removes_comments (E : Env) (now : Nat) (s : Store) (req : Req)
    (P : Principal) (p : Post) (hgate : auth E now req = Gate.next P)
    (hf : Post.findByPk s req.id = some p) (hcan : canMutate P p.userId = true) :
    (∀ q ∈ (deletePost E now s req).store.posts, q.id ≠ req.id) ∧
    (∀ c ∈ (deletePost E now s req).store.comments, c.postId ≠ req.id) ∧
    (listComments (deletePost E now s req).store req).out = ok (JVal.arr []) := by
  have hid : p.id = req.id := find_some_key hf
  have hd : deletePost E now s req =
      ⟨Post.destroy s p, ok (JVal.obj [("message", JVal.str "삭제 완료")])⟩ := by
    rw [deletePost, guarded_next _ hgate]
    exact deletePost_allowed hf hcan
  have hc : ∀ c ∈ (Post.destroy s p).comments, c.postId ≠ req.id := by
    intro c hc
    simp only [Post.destroy, List.mem_filter] at hc
    rw [← hid]
    simpa using hc.2
  rw [hd]
  refine ⟨?_, hc, ?_⟩
  · intro q hq
    simp only [Post.destroy, List.mem_filter] at hq
    rw [← hid]
    simpa using hq.2
  · have hnil : (Post.destroy s p).comments.filter (fun c => c.postId == req.id) = [] := by
      rw [List.filter_eq_nil_iff]
      intro c hmem
      simpa using hc c hmem
    simp [listComments, hnil, ascending]

/-- The cascade at a concrete input: `alice` deletes her post 1, and the
listing of its comments is empty afterwards. -/
theorem delete_post_removes_comments_witness :
    (listComments sampleStore ⟨none, 1, []⟩).out.body =
      JVal.arr [JVal.obj [("id", JVal.num 1), ("content", JVal.str "nice"),
        ("userId", JVal.num 2), ("postId", JVal.num 1), ("createdAt", JVal.num 30),
        ("updatedAt", JVal.num 30), ("User", JVal.obj [("name", JVal.str "Bob")])]] ∧
    (listComments (deletePost specEnv 200 sampleStore (sampleReq aliceToken 1 [])).store
      (sampleReq aliceToken 1 [])).out = ok (JVal.arr []) := by
  refine ⟨by rfl, ?_⟩
  exact (delete_post_removes_comments specEnv 200 sampleStore (sampleReq aliceToken 1 [])
    ⟨1, Role.user⟩ ⟨1, "hello", "first post", 1, 20, 20⟩ (by rfl) (by rfl) (by rfl)).2.2

/-- Deleting an account cascades (lines 56, 70-71, 129-132): after
`DELETE /api/profile` by a principal that passed the gate, the accounts table
has no row with its id, no post and no comment is owned by it, and no comment
refers to a post it owned. -/
theorem delete_account_cascades (E : Env) (now : Nat) (s : Store) (req : Req)
    (P : Principal) (hgate : auth E now req = Gate.next P) :
    (∀ u ∈ (deleteProfile E now s req).store.users, u.id ≠ P.id) ∧
    (∀ p ∈ (deleteProfile E now s req).store.posts, p.userId ≠ P.id) ∧
    (∀ c ∈ (deleteProfile E now s req).store.comments,
      c.userId ≠ P.id ∧ ∀ p ∈ s.posts, p.userId = P.id → c.postId ≠ p.id) := by
  rw [deleteProfile, guarded_next _ hgate]
  simp only [deleteProfileHandler, User.destroy, List.mem_filter]
  refine ⟨?_, ?_, ?_⟩
  · intro u hu
    simpa using hu.2
  · intro p hp
    simpa using hp.2
  · intro c hc
    have h2 := hc.2
    simp only [Bool.and_eq_true, bne_iff_ne, ne_eq, Bool.not_eq_true', List.contains_eq_any_beq,
      List.any_eq_false, List.mem_map, List.mem_filter, beq_iff_eq] at h2
    refine ⟨h2.1, ?_⟩
    intro p hp hown heq
    exact h2.2 p.id ⟨p, ⟨hp, by simpa using hown⟩, rfl⟩ (by simp [heq])

/-- The cascade at a concrete input: after `alice` deletes her account, her
post and the comment of `bob` on it are gone. -/
theorem delete_account_cascades_witness :
    (deleteProfile specEnv 200 sampleStore (sampleReq aliceToken 0 [])).store =
      ⟨[bob, root], [], [], 4, 2, 2⟩ ∧
    ∀ c ∈ (deleteProfile specEnv 200 sampleStore (sampleReq aliceToken 0 [])).store.comments,
      c.userId ≠ 1 ∧ ∀ p ∈ sampleStore.posts, p.userId = 1 → c.postId ≠ p.id := by
  refine ⟨by rfl, ?_⟩
  exact (delete_account_cascades specEnv 200 sampleStore (sampleReq aliceToken 0 [])
    ⟨1, Role.user⟩ (by rfl)).2.2

/-- The end-to-end scenario of section 8 of the specification, evaluated:
`carol` registers and logs in, creates a post, `bob` (standard role) is
refused when he tries to update it, and the administrator `root` updates it. -/
theorem scenario_update_by_other_and_by_admin :
    (register specEnv 90 sampleStore (anonymousReq carolBody)).out.status = some 200 ∧
    (login specEnv 100 (register specEnv 90 sampleStore (anonymousReq carolBody)).store
      (anonymousReq carolBody)).out.body.get "token" = JVal.str carolToken ∧
    storeWithCarolPost.posts = [⟨1, "hello", "first post", 1, 20, 20⟩, ⟨2, "mine", "text", 4, 110, 110⟩] ∧
    (updatePost specEnv 120 storeWithCarolPost
      (sampleReq bobToken 2 [("title", JVal.str "b"), ("content", JVal.str "b")])).out.status =
        some 403 ∧
    (updatePost specEnv 120 storeWithCarolPost
      (sampleReq bobToken 2 [("title", JVal.str "b"), ("content", JVal.str "b")])).store =
        storeWithCarolPost ∧
    (updatePost specEnv 120 storeWithCarolPost
      (sampleReq rootToken 2 [("title", JVal.str "r"), ("content", JVal.str "r")])).out.status =
        some 200 ∧
    (updatePost specEnv 120 storeWithCarolPost
      (sampleReq rootToken 2 [("title", JVal.str "r"), ("content", JVal.str "r")])).store.posts =
        [⟨1, "hello", "first post", 1, 20, 20⟩, ⟨2, "r", "r", 4, 110, 120⟩] := by
  refine ⟨by rfl, by rfl, by rfl, by rfl, by rfl, by rfl, by rfl⟩

end OojinwooServer
